import Mathlib

/-!
Shallow embedding of the contributor-gamification subsystem of this
repository: the points calculator and scoring service
(`gamification/python/points_service.py`), the ledger/badge database layer
(`gamification/python/database.py`), and the event-driven scoring script
(`scripts/assign_points.py`).

Python machine arithmetic is modelled as follows: Python `int` is `Int`
(arbitrary precision), Python `float` values are the exact rationals they
denote, and every float multiplication / division that the points pipeline
performs is followed by `fl`, an exact model of IEEE-754 binary64
round-to-nearest-ties-to-even (normal range; the pipeline's values never
reach subnormal or overflow territory).  `pyTrunc` models Python `int(x)`
(truncation toward zero).
-/

/-- Python `int(x)` applied to a real value: truncation toward zero. -/
def pyTrunc (q : ℚ) : ℤ :=
  if 0 ≤ q then ⌊q⌋ else -⌊-q⌋

/-- Fuel-driven base-2 logarithm on naturals; `nlog2 fuel n = ⌊log₂ n⌋`
whenever `1 ≤ n < 2 ^ fuel`.  Structural recursion on the fuel keeps it
kernel-reducible on literals. -/
def nlog2 : Nat → Nat → Nat
  | 0, _ => 0
  | fuel + 1, n => if n < 2 then 0 else nlog2 fuel (n / 2) + 1

/-- Integer power of two as a rational, kernel-friendly. -/
def pow2 (e : ℤ) : ℚ :=
  if 0 ≤ e then ((2 ^ e.toNat : ℕ) : ℚ) else 1 / ((2 ^ (-e).toNat : ℕ) : ℚ)

/-- Floor of the base-2 logarithm of a positive rational. -/
def ratLog2 (q : ℚ) : ℤ :=
  let n := q.num.natAbs
  let d := q.den
  let e0 : ℤ := (nlog2 (n + d) n : ℤ) - (nlog2 (n + d) d : ℤ)
  if pow2 e0 ≤ q then e0 else e0 - 1

/-- Round a rational to the nearest integer, ties to even. -/
def rne (q : ℚ) : ℤ :=
  if q - ⌊q⌋ < 1/2 then ⌊q⌋
  else if 1/2 < q - ⌊q⌋ then ⌊q⌋ + 1
  else if ⌊q⌋ % 2 = 0 then ⌊q⌋ else ⌊q⌋ + 1

/-- Round a positive rational to the binary64 grid (53 significant bits). -/
def flPos (q : ℚ) : ℚ :=
  (rne (q * pow2 (52 - ratLog2 q)) : ℚ) * pow2 (ratLog2 q - 52)

/-- Exact model of rounding a real result to an IEEE-754 binary64 value
(round to nearest, ties to even), for values in the normal range. -/
def fl (q : ℚ) : ℚ :=
  if q = 0 then 0 else if 0 < q then flPos q else -(flPos (-q))

/-- A Python float multiplication: exact product, then binary64 rounding. -/
def flMul (a b : ℚ) : ℚ := fl (a * b)

/-- A Python float division: exact quotient, then binary64 rounding. -/
def flDiv (a b : ℚ) : ℚ := fl (a / b)

theorem pow2_eq_zpow (e : ℤ) : pow2 e = (2 : ℚ) ^ e := by
  unfold pow2
  split
  · rename_i h
    push_cast
    rw [← zpow_natCast (2 : ℚ) e.toNat, Int.toNat_of_nonneg h]
  · rename_i h
    have h2 : ((2 ^ (-e).toNat : ℕ) : ℚ) = (2 : ℚ) ^ (-e) := by
      push_cast
      rw [← zpow_natCast (2 : ℚ) (-e).toNat, Int.toNat_of_nonneg (by omega)]
    rw [h2, one_div, ← zpow_neg, neg_neg]

theorem pow2_pos (e : ℤ) : 0 < pow2 e := by
  rw [pow2_eq_zpow]; positivity

theorem pow2_mul_pow2 (a b : ℤ) : pow2 a * pow2 b = pow2 (a + b) := by
  rw [pow2_eq_zpow, pow2_eq_zpow, pow2_eq_zpow, ← zpow_add₀ (by norm_num : (2:ℚ) ≠ 0)]

theorem pow2_zero : pow2 0 = 1 := by rw [pow2_eq_zpow]; norm_num

theorem nlog2_spec (fuel : Nat) :
    ∀ n, 1 ≤ n → n < 2 ^ fuel →
      2 ^ nlog2 fuel n ≤ n ∧ n < 2 ^ (nlog2 fuel n + 1) := by
  induction fuel with
  | zero => intro n h1 h2; omega
  | succ f ih =>
    intro n h1 h2
    unfold nlog2
    split
    · rename_i h
      constructor
      · simpa using h1
      · simpa using h
    · rename_i h
      have hd1 : 1 ≤ n / 2 := by omega
      have hd2 : n / 2 < 2 ^ f := by
        have : n < 2 ^ (f + 1) := h2
        have h2f : 2 ^ (f+1) = 2 * 2 ^ f := by ring
        omega
      obtain ⟨hlo, hhi⟩ := ih (n / 2) hd1 hd2
      constructor
      · have : 2 ^ (nlog2 f (n / 2) + 1) = 2 * 2 ^ nlog2 f (n / 2) := by ring
        omega
      · have : 2 ^ (nlog2 f (n / 2) + 1 + 1) = 2 * 2 ^ (nlog2 f (n / 2) + 1) := by ring
        omega

theorem ratLog2_spec (q : ℚ) (hq : 0 < q) :
    pow2 (ratLog2 q) ≤ q ∧ q < pow2 (ratLog2 q + 1) := by
  have hnum : 0 < q.num := Rat.num_pos.mpr hq
  set n := q.num.natAbs with hn
  set d := q.den with hd
  have hn1 : 1 ≤ n := by omega
  have hd1 : 1 ≤ d := q.pos
  have hnf : n < 2 ^ (n + d) := by
    calc n < 2 ^ n := Nat.lt_two_pow n
    _ ≤ 2 ^ (n + d) := Nat.pow_le_pow_right (by norm_num) (by omega)
  have hdf : d < 2 ^ (n + d) := by
    calc d < 2 ^ d := Nat.lt_two_pow d
    _ ≤ 2 ^ (n + d) := Nat.pow_le_pow_right (by norm_num) (by omega)
  obtain ⟨ha1, ha2⟩ := nlog2_spec (n + d) n hn1 hnf
  obtain ⟨hb1, hb2⟩ := nlog2_spec (n + d) d hd1 hdf
  set a := nlog2 (n + d) n with hA
  set b := nlog2 (n + d) d with hB
  have hqnd : q = (n : ℚ) / (d : ℚ) := by
    rw [hn, hd]
    rw [Int.cast_natAbs]
    rw [abs_of_nonneg (by exact_mod_cast le_of_lt hnum)]
    exact (Rat.num_div_den q).symm
  have hdpos : (0 : ℚ) < (d : ℚ) := by exact_mod_cast hd1
  have key : ∀ k : ℕ, ((2 ^ k : ℕ) : ℚ) = (2 : ℚ) ^ (k : ℤ) := by
    intro k
    push_cast
    rw [zpow_natCast]
  -- upper bound q < 2^(a - b + 1)
  have hupper : q < pow2 ((a : ℤ) - b + 1) := by
    rw [hqnd, div_lt_iff₀ hdpos, pow2_eq_zpow]
    have h1 : ((n : ℚ)) < (2 : ℚ) ^ ((a : ℤ) + 1) := by
      calc ((n : ℚ)) < ((2 ^ (a + 1) : ℕ) : ℚ) := by exact_mod_cast ha2
      _ = (2 : ℚ) ^ (((a + 1 : ℕ)) : ℤ) := key _
      _ = (2 : ℚ) ^ ((a : ℤ) + 1) := by congr 1
    have h2 : (2 : ℚ) ^ ((a : ℤ) + 1) ≤ (2 : ℚ) ^ ((a : ℤ) - b + 1) * (d : ℚ) := by
      have hdge2 : (2 : ℚ) ^ ((b : ℤ)) ≤ (d : ℚ) := by
        calc (2 : ℚ) ^ ((b : ℤ)) = ((2 ^ b : ℕ) : ℚ) := (key b).symm
        _ ≤ (d : ℚ) := by exact_mod_cast hb1
      calc (2 : ℚ) ^ ((a : ℤ) + 1) = (2 : ℚ) ^ ((a : ℤ) - b + 1) * (2 : ℚ) ^ ((b : ℤ)) := by
            rw [← zpow_add₀ (by norm_num : (2:ℚ) ≠ 0)]; ring_nf
      _ ≤ (2 : ℚ) ^ ((a : ℤ) - b + 1) * (d : ℚ) := by
            have : (0:ℚ) < (2 : ℚ) ^ ((a : ℤ) - b + 1) := by positivity
            nlinarith
    linarith
  -- lower bound 2^(a - b - 1) < q
  have hlower : pow2 ((a : ℤ) - b - 1) < q := by
    rw [hqnd, lt_div_iff₀ hdpos, pow2_eq_zpow]
    have h1 : (2 : ℚ) ^ ((a : ℤ)) ≤ ((n : ℚ)) := by
      calc (2 : ℚ) ^ ((a : ℤ)) = ((2 ^ a : ℕ) : ℚ) := (key a).symm
      _ ≤ (n : ℚ) := by exact_mod_cast ha1
    have h2 : (2 : ℚ) ^ ((a : ℤ) - b - 1) * (d : ℚ) < (2 : ℚ) ^ ((a : ℤ)) := by
      have hdlt : (d : ℚ) < (2 : ℚ) ^ ((b : ℤ) + 1) := by
        calc (d : ℚ) < ((2 ^ (b + 1) : ℕ) : ℚ) := by exact_mod_cast hb2
        _ = (2 : ℚ) ^ (((b + 1 : ℕ)) : ℤ) := key _
        _ = (2 : ℚ) ^ ((b : ℤ) + 1) := by congr 1
      have hpos : (0:ℚ) < (2 : ℚ) ^ ((a : ℤ) - b - 1) := by positivity
      calc (2 : ℚ) ^ ((a : ℤ) - b - 1) * (d : ℚ)
          < (2 : ℚ) ^ ((a : ℤ) - b - 1) * (2 : ℚ) ^ ((b : ℤ) + 1) := by nlinarith
      _ = (2 : ℚ) ^ ((a : ℤ)) := by
            rw [← zpow_add₀ (by norm_num : (2:ℚ) ≠ 0)]; ring_nf
    linarith
  unfold ratLog2
  simp only [← hn, ← hd, ← hA, ← hB]
  split
  · rename_i h
    exact ⟨h, hupper⟩
  · rename_i h
    constructor
    · have := hlower
      calc pow2 ((a : ℤ) - b - 1) ≤ pow2 ((a : ℤ) - b - 1) := le_refl _
      _ ≤ q := le_of_lt hlower
    · have : (a : ℤ) - b - 1 + 1 = (a : ℤ) - b := by ring
      rw [this]
      exact lt_of_not_le h

theorem rne_intCast (m : ℤ) : rne (m : ℚ) = m := by
  unfold rne
  have hf : ⌊(m : ℚ)⌋ = m := Int.floor_intCast m
  rw [hf]
  simp

theorem floor_intCast_rat (m : ℤ) : ⌊(m : ℚ)⌋ = m := Int.floor_intCast m

theorem one_le_pow2 {e : ℤ} (h : 0 ≤ e) : 1 ≤ pow2 e := by
  unfold pow2
  rw [if_pos h]
  exact_mod_cast Nat.one_le_two_pow

theorem pow2_mono {a b : ℤ} (h : a ≤ b) : pow2 a ≤ pow2 b := by
  have h1 : pow2 b = pow2 a * pow2 (b - a) := by rw [pow2_mul_pow2]; ring_nf
  rw [h1]
  have h2 : 1 ≤ pow2 (b - a) := one_le_pow2 (by omega)
  nlinarith [pow2_pos a]

theorem fl_intCast (m : ℤ) (h0 : 0 ≤ m) (h1 : m < 2 ^ 53) : fl (m : ℚ) = m := by
  rcases eq_or_lt_of_le h0 with he | hpos
  · rw [← he]
    simp [fl]
  · have hq : (0:ℚ) < (m:ℚ) := by exact_mod_cast hpos
    rw [fl, if_neg (by positivity), if_pos hq]
    unfold flPos
    set e := ratLog2 ((m:ℚ)) with hE
    obtain ⟨hlo, hhi⟩ := ratLog2_spec _ hq
    have he52 : e ≤ 52 := by
      by_contra hc
      have h53 : (53:ℤ) ≤ e := by omega
      have hmono : pow2 53 ≤ pow2 e := pow2_mono h53
      have hm53 : (m:ℚ) < pow2 53 := by
        have hcast : ((m:ℚ)) < ((2 ^ 53 : ℤ) : ℚ) := by exact_mod_cast h1
        have hp : pow2 53 = ((2 ^ 53 : ℤ) : ℚ) := by
          unfold pow2
          rw [if_pos (by norm_num)]
          norm_num
          decide
        rw [hp]
        exact hcast
      linarith
    have hint : (m:ℚ) * pow2 (52 - e) = ((m * 2 ^ (52 - e).toNat : ℤ) : ℚ) := by
      unfold pow2
      rw [if_pos (by omega : (0:ℤ) ≤ 52 - e)]
      push_cast
      ring
    rw [hint, rne_intCast]
    push_cast
    have hpow : (2:ℚ) ^ ((52 - e).toNat) = pow2 (52 - e) := by
      unfold pow2
      rw [if_pos (by omega : (0:ℤ) ≤ 52 - e)]
      push_cast
      rfl
    rw [mul_assoc, hpow, pow2_mul_pow2]
    norm_num [pow2_zero]

theorem pow2_lt_pow2 {a b : ℤ} (h : a < b) : pow2 a < pow2 b := by
  have h1 : pow2 b = pow2 a * pow2 (b - a) := by rw [pow2_mul_pow2]; ring_nf
  have h2 : pow2 1 ≤ pow2 (b - a) := pow2_mono (by omega)
  have h3 : pow2 1 = 2 := by
    unfold pow2
    rw [if_pos (by norm_num)]
    norm_num [Int.toNat_ofNat]
  nlinarith [pow2_pos a]

theorem ratLog2_eq_of {q : ℚ} {e : ℤ} (hq : 0 < q) (hlo : pow2 e ≤ q)
    (hhi : q < pow2 (e + 1)) : ratLog2 q = e := by
  obtain ⟨h1, h2⟩ := ratLog2_spec q hq
  by_contra hne
  rcases lt_or_gt_of_ne hne with hlt | hgt
  · have := pow2_mono (by omega : ratLog2 q + 1 ≤ e)
    linarith
  · have := pow2_mono (by omega : e + 1 ≤ ratLog2 q)
    linarith

theorem fl_eq_of {q : ℚ} {e k : ℤ} (hq : 0 < q) (hlo : pow2 e ≤ q)
    (hhi : q < pow2 (e + 1)) (hr : rne (q * pow2 (52 - e)) = k) :
    fl q = (k : ℚ) * pow2 (e - 52) := by
  have hE : ratLog2 q = e := ratLog2_eq_of hq hlo hhi
  rw [fl, if_neg (ne_of_gt hq), if_pos hq]
  unfold flPos
  rw [hE, hr]

theorem rne_of_frac_lt {q : ℚ} {n : ℤ} (h1 : (n:ℚ) ≤ q) (h2 : q < (n:ℚ) + 1/2) :
    rne q = n := by
  have hf : ⌊q⌋ = n := Int.floor_eq_iff.mpr ⟨h1, by push_cast; linarith⟩
  unfold rne
  rw [hf, if_pos (by push_cast; linarith)]

theorem rne_of_frac_gt {q : ℚ} {n : ℤ} (h1 : (n:ℚ) + 1/2 < q) (h2 : q < (n:ℚ) + 1) :
    rne q = n + 1 := by
  have hf : ⌊q⌋ = n := Int.floor_eq_iff.mpr ⟨by linarith, by push_cast; linarith⟩
  unfold rne
  rw [hf, if_neg (by push_cast; linarith), if_pos (by push_cast; linarith)]

theorem rne_of_tie_even {q : ℚ} {n : ℤ} (h : q = (n:ℚ) + 1/2) (he : n % 2 = 0) :
    rne q = n := by
  have hf : ⌊q⌋ = n := Int.floor_eq_iff.mpr ⟨by linarith, by push_cast; linarith⟩
  unfold rne
  rw [hf, if_neg (by push_cast; linarith), if_neg (by push_cast; linarith), if_pos he]

theorem pyTrunc_of_nonneg {q : ℚ} {n : ℤ} (h1 : (n:ℚ) ≤ q) (h2 : q < (n:ℚ) + 1)
    (h0 : 0 ≤ q) : pyTrunc q = n := by
  unfold pyTrunc
  rw [if_pos h0]
  exact Int.floor_eq_iff.mpr ⟨h1, by push_cast; linarith⟩

theorem pyTrunc_intCast (k : ℤ) : pyTrunc ((k : ℚ)) = k := by
  unfold pyTrunc
  rcases le_or_lt 0 k with h | h
  · rw [if_pos (by exact_mod_cast h), Int.floor_intCast]
  · rw [if_neg (by push_cast; exact not_le.mpr (by exact_mod_cast h))]
    rw [← Int.cast_neg, Int.floor_intCast]
    omega

theorem fl_eval {q : ℚ} {e k : ℤ} (hq : 0 < q) (hlo : (2:ℚ)^e ≤ q) (hhi : q < (2:ℚ)^(e+1))
    (hr : rne (q * (2:ℚ)^(52 - e)) = k) : fl q = (k : ℚ) * (2:ℚ)^(e - 52) := by
  have h := fl_eq_of (q := q) (e := e) (k := k) hq
    (by rw [pow2_eq_zpow]; exact hlo) (by rw [pow2_eq_zpow]; exact hhi)
    (by rw [pow2_eq_zpow]; exact hr)
  rw [pow2_eq_zpow] at h
  exact h

/-- The binary64 value of the Python literal `0.20`. -/
theorem fl_one_fifth : fl (1/5) = 7205759403792794 / 36028797018963968 := by
  have h := fl_eval (q := 1/5) (e := -3) (k := 7205759403792794) (by norm_num)
    (by norm_num) (by norm_num)
    (by
      have h2 := rne_of_frac_gt (q := (1/5) * (2:ℚ)^(52 - (-3) : ℤ)) (n := 7205759403792793)
        (by norm_num) (by norm_num)
      omega)
  rw [h]
  norm_num

/-- The binary64 value of `1.0 + 0.2`: exactly the double nearest `1.2`. -/
theorem fl_speed_factor :
    fl (21617278211378381 / 18014398509481984) = 5404319552844595 / 4503599627370496 := by
  have h := fl_eval (q := 21617278211378381 / 18014398509481984) (e := 0)
    (k := 5404319552844595) (by norm_num) (by norm_num) (by norm_num)
    (by
      have h2 := rne_of_frac_lt (q := (21617278211378381 / 18014398509481984) * (2:ℚ)^(52 - 0 : ℤ))
        (n := 5404319552844595) (by norm_num) (by norm_num)
      omega)
  rw [h]
  norm_num

/-- The binary64 product `3.0 * 1.2 = 3.5999999999999996` (a tie rounded to even). -/
theorem fl_crit_speed :
    fl (16212958658533785 / 4503599627370496) = 8106479329266892 / 2251799813685248 := by
  have h := fl_eval (q := 16212958658533785 / 4503599627370496) (e := 1)
    (k := 8106479329266892) (by norm_num) (by norm_num) (by norm_num)
    (by
      have h2 := rne_of_tie_even (q := (16212958658533785 / 4503599627370496) * (2:ℚ)^(52 - 1 : ℤ))
        (n := 8106479329266892) (by norm_num) (by norm_num)
      omega)
  rw [h]
  norm_num

/-- The binary64 product `15 * (3.0*1.2) = 53.99999999999999`. -/
theorem fl_fifteen_crit_speed :
    fl (30399297484750845 / 562949953421312) = 7599824371187711 / 140737488355328 := by
  have h := fl_eval (q := 30399297484750845 / 562949953421312) (e := 5)
    (k := 7599824371187711) (by norm_num) (by norm_num) (by norm_num)
    (by
      have h2 := rne_of_frac_lt (q := (30399297484750845 / 562949953421312) * (2:ℚ)^(52 - 5 : ℤ))
        (n := 7599824371187711) (by norm_num) (by norm_num)
      omega)
  rw [h]
  norm_num

/-- The binary64 quotient `35 / 3.0 = 11.666666666666666`. -/
theorem fl_thirtyfive_thirds :
    fl (35 / 3) = 6567749456581973 / 562949953421312 := by
  have h := fl_eval (q := 35 / 3) (e := 3) (k := 6567749456581973)
    (by norm_num) (by norm_num) (by norm_num)
    (by
      have h2 := rne_of_frac_lt (q := (35 / 3) * (2:ℚ)^(52 - 3 : ℤ))
        (n := 6567749456581973) (by norm_num) (by norm_num)
      omega)
  rw [h]
  norm_num

theorem fl_one : fl (1 : ℚ) = 1 := by
  have h := fl_intCast 1 (by norm_num) (by norm_num)
  push_cast at h
  exact h

theorem fl_three : fl (3 : ℚ) = 3 := by
  have h := fl_intCast 3 (by norm_num) (by norm_num)
  push_cast at h
  exact h

theorem fl_ten : fl (10 : ℚ) = 10 := by
  have h := fl_intCast 10 (by norm_num) (by norm_num)
  push_cast at h
  exact h

theorem fl_eleven : fl (11 : ℚ) = 11 := by
  have h := fl_intCast 11 (by norm_num) (by norm_num)
  push_cast at h
  exact h

theorem fl_fifteen : fl (15 : ℚ) = 15 := by
  have h := fl_intCast 15 (by norm_num) (by norm_num)
  push_cast at h
  exact h

theorem fl_thirty : fl (30 : ℚ) = 30 := by
  have h := fl_intCast 30 (by norm_num) (by norm_num)
  push_cast at h
  exact h

theorem fl_thirtythree : fl (33 : ℚ) = 33 := by
  have h := fl_intCast 33 (by norm_num) (by norm_num)
  push_cast at h
  exact h

theorem fl_thirtyfive : fl (35 : ℚ) = 35 := by
  have h := fl_intCast 35 (by norm_num) (by norm_num)
  push_cast at h
  exact h

/-!
Embedding of `gamification/python/points_service.py`.

`Priority` is a Python `Enum` whose `LOW` and `MEDIUM` members share the
value `1.0`, making `MEDIUM` an alias of `LOW` (so `MEDIUM.name` is
`"LOW"`).  Timestamps are modelled as rational seconds;
`timedelta.total_seconds()` is the exact difference.
-/

inductive Priority where
  | LOW
  | MEDIUM
  | HIGH
  | CRITICAL
deriving DecidableEq, Repr

namespace Priority

/-- The float value of each enum member (`LOW = 1.0, MEDIUM = 1.0,
HIGH = 2.0, CRITICAL = 3.0`). -/
def value : Priority → ℚ
  | LOW => 1
  | MEDIUM => 1
  | HIGH => 2
  | CRITICAL => 3

/-- The same values as integers, for bound-keeping. -/
def valueInt : Priority → ℤ
  | LOW => 1
  | MEDIUM => 1
  | HIGH => 2
  | CRITICAL => 3

/-- Python `priority.name`; `MEDIUM` is an alias of `LOW` because both carry
the value `1.0`, so its `.name` is `"LOW"`. -/
def pyName : Priority → String
  | LOW => "LOW"
  | MEDIUM => "LOW"
  | HIGH => "HIGH"
  | CRITICAL => "CRITICAL"

theorem value_eq_intCast (p : Priority) : p.value = ((p.valueInt : ℤ) : ℚ) := by
  cases p <;> simp [value, valueInt]

end Priority

/-- Class constant `SPEED_BONUS_PERCENTAGE = 0.20`: the double nearest 0.20. -/
def SPEED_BONUS_PERCENTAGE : ℚ := fl (1/5)

/-- Class constant `STREAK_BONUS_POINTS = 10`. -/
def STREAK_BONUS_POINTS : ℤ := 10

/-- Class constant `FIRST_TIMER_BONUS = 5`. -/
def FIRST_TIMER_BONUS : ℤ := 5

/-- Class constant `SPEED_BONUS_HOURS = 24`. -/
def SPEED_BONUS_HOURS : ℚ := 24

/-- Class constant `STREAK_BONUS_DAYS = 5`. -/
def STREAK_BONUS_DAYS : ℤ := 5

/-- The mutable state of a `PointsCalculator` instance. -/
structure PointsCalculator where
  base_points : ℤ
  multiplier : ℚ
  bonuses : List String
deriving DecidableEq, Repr

namespace PointsCalculator

/-- `PointsCalculator.__init__`: multiplier `1.0`, empty bonus list. -/
def init (base_points : ℤ) : PointsCalculator :=
  ⟨base_points, 1, []⟩

/-- `apply_priority_multiplier`: multiply the running multiplier by the
priority value (a float multiplication); record HIGH/CRITICAL as named
bonuses. -/
def apply_priority_multiplier (c : PointsCalculator) (priority : Priority) :
    PointsCalculator :=
  { c with
    multiplier := flMul c.multiplier priority.value
    bonuses :=
      if priority = Priority.HIGH ∨ priority = Priority.CRITICAL then
        c.bonuses ++ [priority.pyName ++ " Priority"]
      else c.bonuses }

/-- `apply_speed_bonus`: if the elapsed time from `created_at` to
`completed_at` (defaulting to `now`) is at most 24 hours, scale the
multiplier by the float `1 + 0.2`.  Timestamps are rational seconds. -/
def apply_speed_bonus (c : PointsCalculator) (created_at : ℚ)
    (completed_at : Option ℚ) (now : ℚ) : PointsCalculator :=
  let completed := completed_at.getD now
  let hours_taken := (completed - created_at) / 3600
  if hours_taken ≤ SPEED_BONUS_HOURS then
    { c with
      multiplier := flMul c.multiplier (fl (1 + SPEED_BONUS_PERCENTAGE))
      bonuses := c.bonuses ++ ["Speed Bonus (+20%)"] }
  else c

/-- `apply_streak_bonus`: records the audit string only (the flat points are
added in `calculate`). -/
def apply_streak_bonus (c : PointsCalculator) (current_streak : ℤ) :
    PointsCalculator :=
  if current_streak > 0 ∧ current_streak % STREAK_BONUS_DAYS = 0 then
    { c with bonuses := c.bonuses ++ ["Streak Bonus (+10 points)"] }
  else c

/-- `apply_first_timer_bonus`: records the audit string only. -/
def apply_first_timer_bonus (c : PointsCalculator) (is_first_timer : Bool) :
    PointsCalculator :=
  if is_first_timer then
    { c with bonuses := c.bonuses ++ ["First Timer Bonus (+5 points)"] }
  else c

/-- Python `" | ".join(...)`. -/
def joinBar : List String → String
  | [] => ""
  | [s] => s
  | s :: rest => s ++ " | " ++ joinBar rest

/-- `calculate`: truncate `base_points * multiplier` (int times float, so the
int is converted to a double and the product rounded), then add the flat
streak and first-timer bonuses.  Returns
`(final_points, total_multiplier, bonus_description)`. -/
def calculate (c : PointsCalculator) (current_streak : ℤ) (is_first_timer : Bool) :
    ℤ × ℚ × String :=
  let points_with_multiplier := pyTrunc (flMul (fl ((c.base_points : ℚ))) c.multiplier)
  let flat_bonuses : ℤ :=
    (if current_streak > 0 ∧ current_streak % STREAK_BONUS_DAYS = 0 then
      STREAK_BONUS_POINTS else 0)
    + (if is_first_timer then FIRST_TIMER_BONUS else 0)
  let final_points := points_with_multiplier + flat_bonuses
  let bonus_description := if c.bonuses.isEmpty then "No bonuses" else joinBar c.bonuses
  (final_points, c.multiplier, bonus_description)

end PointsCalculator

theorem pyTrunc_53 : pyTrunc (7599824371187711 / 140737488355328) = 53 :=
  pyTrunc_of_nonneg (by norm_num) (by norm_num) (by norm_num)

/-- C2: the claim asserts `calculate` returns `floor(b × m)` plus flat
bonuses, with `m` the product of the priority factor and the speed factor
`1.2`.  At `b = 15`, priority CRITICAL (`×3.0`) with the speed bonus, the
code computes the binary64 product `15 * (3.0 * 1.2) = 53.99999999999999`
and truncates it to `53`, while `⌊15 × 3.6⌋ = 54`: the claimed formula
fails on the code at this input. -/
theorem C2_counterexample :
    ((((PointsCalculator.init 15).apply_priority_multiplier
        Priority.CRITICAL).apply_speed_bonus 0 (some 0) 0).calculate 0 false).1 = 53
    ∧ (⌊(15:ℚ) * (3 * (6/5))⌋ + (0:ℤ) + 0) = 54 := by
  constructor
  · norm_num [PointsCalculator.init, PointsCalculator.apply_priority_multiplier,
      PointsCalculator.apply_speed_bonus, PointsCalculator.calculate, Priority.value,
      SPEED_BONUS_PERCENTAGE, SPEED_BONUS_HOURS, flMul, fl_one_fifth, fl_speed_factor,
      fl_crit_speed, fl_fifteen, fl_fifteen_crit_speed, fl_three, pyTrunc_53]
  · have h : (15:ℚ) * (3 * (6/5)) = ((54:ℤ) : ℚ) := by norm_num
    rw [h, Int.floor_intCast]
    norm_num

/-- C2 (amended): when no speed bonus is granted the running multiplier is
the exactly-representable priority value, and for `0 ≤ b` with
`b · m < 2 ^ 53` the float pipeline is exact, so `calculate` returns
`⌊b × m⌋` plus the flat streak bonus (`+10` when `streak > 0` and
`streak % 5 = 0`) and the flat first-timer bonus (`+5`), the flat bonuses
being added after the truncation, together with the multiplier `m`. -/
theorem C2_amended_calculate (b : ℤ) (p : Priority) (s : ℤ) (f : Bool)
    (hb : 0 ≤ b) (hbound : b * p.valueInt < 2 ^ 53) :
    (((PointsCalculator.init b).apply_priority_multiplier p).calculate s f).1
      = ⌊(b:ℚ) * p.value⌋
        + (if s > 0 ∧ s % 5 = 0 then 10 else 0) + (if f then 5 else 0)
    ∧ (((PointsCalculator.init b).apply_priority_multiplier p).calculate s f).2.1
      = p.value := by
  have hv1 : (1:ℤ) ≤ p.valueInt := by cases p <;> simp [Priority.valueInt]
  have hv3 : p.valueInt ≤ 3 := by cases p <;> simp [Priority.valueInt]
  have h53 : (2:ℤ) ^ 53 = 9007199254740992 := by norm_num
  have hvnn : (0:ℤ) ≤ p.valueInt := by omega
  have hb53 : b < 2 ^ 53 := by nlinarith [mul_le_mul_of_nonneg_left hv1 hb]
  have hvbound : p.valueInt < 2 ^ 53 := by omega
  have hmul : flMul 1 p.value = p.value := by
    rw [flMul, one_mul, Priority.value_eq_intCast]
    exact fl_intCast p.valueInt (by omega) hvbound
  have hflb : fl ((b : ℚ)) = (b : ℚ) := fl_intCast b hb hb53
  have hprod : fl ((b : ℚ) * p.value) = (b : ℚ) * p.value := by
    rw [Priority.value_eq_intCast]
    have h1 : ((b : ℚ)) * ((p.valueInt : ℤ) : ℚ) = ((b * p.valueInt : ℤ) : ℚ) := by push_cast; ring
    rw [h1]
    exact fl_intCast _ (by positivity) hbound
  have hfloor : ⌊(b:ℚ) * p.value⌋ = b * p.valueInt := by
    rw [Priority.value_eq_intCast]
    have h1 : ((b : ℚ)) * ((p.valueInt : ℤ) : ℚ) = ((b * p.valueInt : ℤ) : ℚ) := by push_cast; ring
    rw [h1, Int.floor_intCast]
  have htr : pyTrunc ((b:ℚ) * p.value) = b * p.valueInt := by
    rw [Priority.value_eq_intCast]
    have h1 : ((b : ℚ)) * ((p.valueInt : ℤ) : ℚ) = ((b * p.valueInt : ℤ) : ℚ) := by push_cast; ring
    rw [h1, pyTrunc_intCast]
  constructor
  · simp only [PointsCalculator.calculate, PointsCalculator.init,
      PointsCalculator.apply_priority_multiplier, flMul, one_mul]
    rw [show fl p.value = p.value from by
        rw [Priority.value_eq_intCast]; exact fl_intCast p.valueInt (by omega) hvbound]
    rw [hflb, hprod, htr, hfloor]
    simp only [STREAK_BONUS_DAYS, STREAK_BONUS_POINTS, FIRST_TIMER_BONUS]
    ring
  · simp only [PointsCalculator.calculate, PointsCalculator.init,
      PointsCalculator.apply_priority_multiplier, flMul, one_mul]
    rw [show fl p.value = p.value from by
        rw [Priority.value_eq_intCast]; exact fl_intCast p.valueInt (by omega) hvbound]

/-- C2 witness: the claim's own example, `b = 10`, CRITICAL (`×3.0`), no
speed bonus, streak 5, not a first-timer: `⌊10 × 3⌋ + 10 + 0 = 40`. -/
theorem C2_amended_witness :
    ((0:ℤ) ≤ 10 ∧ 10 * Priority.CRITICAL.valueInt < 2 ^ 53) ∧
    ((((PointsCalculator.init 10).apply_priority_multiplier Priority.CRITICAL).calculate 5 false).1
        = ⌊(10:ℚ) * Priority.CRITICAL.value⌋
          + (if (5:ℤ) > 0 ∧ (5:ℤ) % 5 = 0 then 10 else 0) + (if false then 5 else 0)
      ∧ (((PointsCalculator.init 10).apply_priority_multiplier Priority.CRITICAL).calculate 5 false).2.1
        = Priority.CRITICAL.value) :=
  ⟨⟨by decide, by decide⟩, C2_amended_calculate 10 Priority.CRITICAL 5 false (by decide) (by decide)⟩

/-- C10: `apply_speed_bonus` scales the running multiplier by the float
`1 + 0.2` exactly when the elapsed seconds from `created_at` to
`completed_at` (defaulting to `now` when omitted) are at most
`86400` (24 hours); in particular a negative elapsed time also earns the
bonus, since the characterisation holds for every rational elapsed time. -/
theorem C10_speed_bonus_threshold (c : PointsCalculator) (created_at : ℚ)
    (completed_at : Option ℚ) (now : ℚ) :
    (c.apply_speed_bonus created_at completed_at now).multiplier =
      if completed_at.getD now - created_at ≤ 86400 then
        flMul c.multiplier (fl (1 + SPEED_BONUS_PERCENTAGE))
      else c.multiplier := by
  have hiff : ((completed_at.getD now - created_at) / 3600 ≤ SPEED_BONUS_HOURS)
      ↔ (completed_at.getD now - created_at ≤ 86400) := by
    rw [SPEED_BONUS_HOURS, div_le_iff₀ (by norm_num : (0:ℚ) < 3600)]
    norm_num
  unfold PointsCalculator.apply_speed_bonus
  by_cases h : (completed_at.getD now - created_at) / 3600 ≤ SPEED_BONUS_HOURS
  · rw [if_pos h, if_pos (hiff.mp h)]
  · rw [if_neg h, if_neg (fun hc => h (hiff.mpr hc))]

/-!
Embedding of `gamification/python/database.py`.

The SQLite tables become lists of records; SQL row ids are tracked with an
explicit counter.  Dates are modelled as calendar-day numbers (`ℤ`);
`datetime.now().date()` becomes an explicit `today` argument.  The schema
file `gamification/database/schema.sql` is not among the sources, so the
column defaults of a freshly created contributor (zero points, zero
streaks, `is_first_timer` true) and the UNIQUE constraint on
`contributor_badges (contributor_id, badge_id)` are modelled from the
spec (§3: default zero state; at-most-once badge award).
-/

structure Contributor where
  id : ℕ
  github_username : String
  total_points : ℤ
  current_streak : ℤ
  longest_streak : ℤ
  last_contribution_date : Option ℤ
  is_first_timer : Bool
deriving DecidableEq

structure Contribution where
  contributor_id : ℕ
  action_type : String
  points_earned : ℤ
  multiplier : ℚ
  final_points : ℤ
deriving DecidableEq

/-- A badge's structured criteria dictionary: each optional key present
means that criterion is checked (`_check_badge_criteria`). -/
structure Criteria where
  min_points : Option ℤ
  min_streak : Option ℤ
  is_first_contribution : Bool
  category : Option String
  action : Option String
  count : Option ℤ
deriving DecidableEq

structure Badge where
  id : ℕ
  name : String
  tier : ℤ
  points_required : ℤ
  criteria : Criteria
deriving DecidableEq

structure ActionType where
  action_name : String
  base_points : ℤ
  category : String
deriving DecidableEq

structure GamificationDatabase where
  contributors : List Contributor
  contributions : List Contribution
  badges : List Badge
  contributor_badges : List (ℕ × ℕ)
  action_types : List ActionType
  next_contributor_id : ℕ
deriving DecidableEq

namespace GamificationDatabase

/-- `get_action_points`: base points of an action type, `0` when unknown. -/
def get_action_points (db : GamificationDatabase) (action_name : String) : ℤ :=
  match db.action_types.find? (fun a => a.action_name == action_name) with
  | some a => a.base_points
  | none => 0

/-- `SELECT * FROM contributors WHERE id = ?` (first match). -/
def find_contributor (db : GamificationDatabase) (cid : ℕ) : Option Contributor :=
  db.contributors.find? (fun c => c.id == cid)

/-- `get_contributor_by_username`: `None` when the handle is unknown. -/
def get_contributor_by_username (db : GamificationDatabase) (github_username : String) :
    Option Contributor :=
  db.contributors.find? (fun c => c.github_username == github_username)

/-- `get_or_create_contributor`.  Modelled from the spec for the INSERT's
column defaults (`schema.sql` is not among the sources): a new contributor
starts in the zero state with `is_first_timer` true.  The source re-fetches
via a recursive call after the INSERT; this returns the created row
directly. -/
def get_or_create_contributor (db : GamificationDatabase) (github_username : String) :
    GamificationDatabase × Contributor :=
  match db.contributors.find? (fun c => c.github_username == github_username) with
  | some c => (db, c)
  | none =>
    let c : Contributor :=
      { id := db.next_contributor_id
        github_username := github_username
        total_points := 0
        current_streak := 0
        longest_streak := 0
        last_contribution_date := none
        is_first_timer := true }
    ({ db with
        contributors := db.contributors ++ [c]
        next_contributor_id := db.next_contributor_id + 1 }, c)

/-- `update_contributor_points`: add `points_to_add` to the matching row's
`total_points`; a missing id updates zero rows. -/
def update_contributor_points (db : GamificationDatabase) (contributor_id : ℕ)
    (points_to_add : ℤ) : GamificationDatabase :=
  { db with
    contributors := db.contributors.map (fun c =>
      if c.id == contributor_id then
        { c with total_points := c.total_points + points_to_add }
      else c) }

/-- `update_contributor_streak`: recompute the streak from the gap between
`today` and the stored `last_contribution_date`; silently returns when the
id does not exist. -/
def update_contributor_streak (db : GamificationDatabase) (contributor_id : ℕ)
    (today : ℤ) : GamificationDatabase :=
  match db.contributors.find? (fun c => c.id == contributor_id) with
  | none => db
  | some row =>
    let current_streak := row.current_streak
    let new_streak : ℤ :=
      match row.last_contribution_date with
      | some last_date =>
        let days_diff := today - last_date
        if days_diff = 1 then current_streak + 1
        else if days_diff = 0 then current_streak
        else 1
      | none => 1
    { db with
      contributors := db.contributors.map (fun c =>
        if c.id == contributor_id then
          { c with
            current_streak := new_streak
            longest_streak := max c.longest_streak new_streak
            last_contribution_date := some today
            is_first_timer := false }
        else c) }

/-- `add_contribution`: store the record with
`final_points = int(points * multiplier)`, then update the contributor's
points and streak, in that order.  Returns the new row id. -/
def add_contribution (db : GamificationDatabase) (contributor_id : ℕ)
    (action_type : String) (points : ℤ) (multiplier : ℚ) (today : ℤ) :
    GamificationDatabase × ℕ :=
  let final_points := pyTrunc (flMul (fl ((points : ℚ))) multiplier)
  let db1 := { db with
    contributions := db.contributions ++
      [{ contributor_id := contributor_id, action_type := action_type,
         points_earned := points, multiplier := multiplier,
         final_points := final_points }] }
  let db2 := update_contributor_points db1 contributor_id final_points
  let db3 := update_contributor_streak db2 contributor_id today
  (db3, db1.contributions.length)

/-- `award_badge`: one INSERT guarded by the UNIQUE constraint on
`(contributor_id, badge_id)`.  Modelled from the spec for the constraint
itself (`schema.sql` is not among the sources): an attempt on an existing
pair raises `sqlite3.IntegrityError`, which the source catches and turns
into `False`. -/
def award_badge (db : GamificationDatabase) (contributor_id badge_id : ℕ) :
    GamificationDatabase × Bool :=
  if (contributor_id, badge_id) ∈ db.contributor_badges then
    (db, false)
  else
    ({ db with contributor_badges := db.contributor_badges ++ [(contributor_id, badge_id)] },
     true)

/-- Insert a badge into a list sorted by `(tier, points_required)`. -/
def insertBadge (b : Badge) : List Badge → List Badge
  | [] => [b]
  | x :: xs =>
    if b.tier < x.tier ∨ (b.tier = x.tier ∧ b.points_required ≤ x.points_required) then
      b :: x :: xs
    else
      x :: insertBadge b xs

/-- `get_all_badges`: `SELECT * FROM badges ORDER BY tier, points_required`. -/
def get_all_badges (db : GamificationDatabase) : List Badge :=
  db.badges.foldr insertBadge []

/-- The category of a contribution under the `action_types` join (an inner
join: contributions with unknown action types drop out). -/
def contributionCategory (db : GamificationDatabase) (c : Contribution) : Option String :=
  (db.action_types.find? (fun a => a.action_name == c.action_type)).map (fun a => a.category)

/-- Rows of the per-category aggregate for one contributor. -/
def categoryRows (db : GamificationDatabase) (cid : ℕ) (cat : String) : List Contribution :=
  db.contributions.filter (fun c =>
    c.contributor_id == cid && contributionCategory db c == some cat)

/-- `COUNT(*)` of one contributor's contributions with a given action type. -/
def actionCount (db : GamificationDatabase) (cid : ℕ) (act : String) : ℕ :=
  (db.contributions.filter (fun c =>
    c.contributor_id == cid && c.action_type == act)).length

/-- `SUM(final_points)` within one category for one contributor. -/
def categoryPoints (db : GamificationDatabase) (cid : ℕ) (cat : String) : ℤ :=
  ((categoryRows db cid cat).map (fun c => c.final_points)).sum

/-- `_check_badge_criteria`: the conjunction of every criterion present in
the badge's criteria dictionary. -/
def check_badge_criteria (db : GamificationDatabase) (contributor : Contributor)
    (criteria : Criteria) : Bool :=
  (match criteria.min_points with
   | some mp => decide (mp ≤ contributor.total_points)
   | none => true)
  && (match criteria.min_streak with
      | some ms => decide (ms ≤ contributor.current_streak)
      | none => true)
  && (if criteria.is_first_contribution then contributor.is_first_timer else true)
  && (match criteria.category with
      | some cat =>
        !(categoryRows db contributor.id cat).isEmpty
        && (match criteria.min_points with
            | some mp => decide (mp ≤ categoryPoints db contributor.id cat)
            | none => true)
      | none => true)
  && (match criteria.action, criteria.count with
      | some act, some cnt => decide (cnt ≤ (actionCount db contributor.id act : ℤ))
      | _, _ => true)

/-- One iteration of the badge loop in `check_and_award_badges`. -/
def badgeStep (cid : ℕ) (contributor : Contributor)
    (acc : GamificationDatabase × List Badge) (badge : Badge) :
    GamificationDatabase × List Badge :=
  let db1 := acc.1
  if (cid, badge.id) ∈ db1.contributor_badges then acc
  else if check_badge_criteria db1 contributor badge.criteria then
    let r := award_badge db1 cid badge.id
    if r.2 then (r.1, acc.2 ++ [badge]) else (r.1, acc.2)
  else acc

/-- `check_and_award_badges`: for each badge not yet held, evaluate its
criteria and award it; returns the newly awarded badges.  `none` models the
`TypeError` the source raises (`dict(cursor.fetchone())`) when the
contributor id does not exist. -/
def check_and_award_badges (db : GamificationDatabase) (contributor_id : ℕ) :
    Option (GamificationDatabase × List Badge) :=
  match find_contributor db contributor_id with
  | none => none
  | some contributor =>
    some ((get_all_badges db).foldl (badgeStep contributor_id contributor) (db, []))

end GamificationDatabase

/-!
Embedding of the `PointsService` class (`points_service.py`).
-/

/-- ASCII upper-casing of one character (Python `str.upper` on the inputs
this service sees). -/
def upperChar (c : Char) : Char :=
  if 'a' ≤ c ∧ c ≤ 'z' then Char.ofNat (c.toNat - 32) else c

/-- ASCII lower-casing of one character (Python `str.lower`). -/
def lowerChar (c : Char) : Char :=
  if 'A' ≤ c ∧ c ≤ 'Z' then Char.ofNat (c.toNat + 32) else c

/-- Python `s.upper()` (ASCII). -/
def pyUpper (s : String) : String :=
  String.mk (s.data.map upperChar)

/-- Python `s.lower()` (ASCII). -/
def pyLower (s : String) : String :=
  String.mk (s.data.map lowerChar)

/-- `Priority[s.upper()]`: enum lookup by member name; unknown names raise
`KeyError` (modelled as `none`).  `MEDIUM` is an alias of `LOW` but is still
reachable by name lookup. -/
def parsePriority (s : String) : Option Priority :=
  if pyUpper s == "LOW" then some Priority.LOW
  else if pyUpper s == "MEDIUM" then some Priority.MEDIUM
  else if pyUpper s == "HIGH" then some Priority.HIGH
  else if pyUpper s == "CRITICAL" then some Priority.CRITICAL
  else none

/-- The action-specific data dictionary passed to the service: each field
is one key the source reads (absent keys are `none` / `false`).  Timestamps
are rational seconds. -/
structure ActionData where
  priority : Option String
  is_bug_fix : Bool
  is_security : Bool
  created_at : Option ℚ
  completed_at : Option ℚ
  review_type : Option String
  has_performance_suggestion : Bool
  is_approval : Bool
  doc_type : Option String
deriving DecidableEq

/-- The dictionary returned by `award_points` (metadata omitted). -/
structure ScoringResult where
  contribution_id : ℕ
  points_earned : ℤ
  total_points : ℤ
  current_streak : ℤ
  new_badges : List String
deriving DecidableEq

namespace PointsService

open GamificationDatabase

/-- `calculate_pr_merged_points`: bug fixes use the `bug_fixed` action;
priority multiplier, then speed bonus when both timestamps are present,
then the flat-bonus audit entries.  `none` models the `KeyError` on an
unknown priority name. -/
def calculate_pr_merged_points (db : GamificationDatabase) (github_username : String)
    (pr_data : ActionData) : Option (GamificationDatabase × ℤ × ℚ) :=
  let r := get_or_create_contributor db github_username
  let db1 := r.1
  let contributor := r.2
  let base_points :=
    if pr_data.is_bug_fix then get_action_points db1 "bug_fixed"
    else get_action_points db1 "pr_merged"
  match parsePriority (pr_data.priority.getD "MEDIUM") with
  | none => none
  | some priority =>
    let c1 := (PointsCalculator.init base_points).apply_priority_multiplier priority
    let c2 :=
      match pr_data.created_at, pr_data.completed_at with
      | some created, some merged => c1.apply_speed_bonus created (some merged) 0
      | _, _ => c1
    let c3 := c2.apply_streak_bonus contributor.current_streak
    let c4 := c3.apply_first_timer_bonus contributor.is_first_timer
    let res := c4.calculate contributor.current_streak contributor.is_first_timer
    some (db1, res.1, res.2.1)

/-- `calculate_code_review_points`: the action is selected by
detailed > performance suggestion > approval > basic; no multiplier or
speed bonus. -/
def calculate_code_review_points (db : GamificationDatabase) (github_username : String)
    (review_data : ActionData) : Option (GamificationDatabase × ℤ × ℚ) :=
  let r := get_or_create_contributor db github_username
  let db1 := r.1
  let contributor := r.2
  let review_type := review_data.review_type.getD "basic"
  let action :=
    if review_type == "detailed" then "review_detailed"
    else if review_data.has_performance_suggestion then "review_performance_suggestion"
    else if review_data.is_approval then "review_approve"
    else "review_basic"
  let c1 := PointsCalculator.init (get_action_points db1 action)
  let c2 := c1.apply_streak_bonus contributor.current_streak
  let c3 := c2.apply_first_timer_bonus contributor.is_first_timer
  let res := c3.calculate contributor.current_streak contributor.is_first_timer
  some (db1, res.1, res.2.1)

/-- `calculate_issue_points`: security issues use the `security_fix` action;
priority multiplier and speed bonus as for PRs. -/
def calculate_issue_points (db : GamificationDatabase) (github_username : String)
    (issue_data : ActionData) : Option (GamificationDatabase × ℤ × ℚ) :=
  let r := get_or_create_contributor db github_username
  let db1 := r.1
  let contributor := r.2
  let base_points :=
    if issue_data.is_security then get_action_points db1 "security_fix"
    else get_action_points db1 "issue_closed"
  match parsePriority (issue_data.priority.getD "MEDIUM") with
  | none => none
  | some priority =>
    let c1 := (PointsCalculator.init base_points).apply_priority_multiplier priority
    let c2 :=
      match issue_data.created_at, issue_data.completed_at with
      | some created, some closed => c1.apply_speed_bonus created (some closed) 0
      | _, _ => c1
    let c3 := c2.apply_streak_bonus contributor.current_streak
    let c4 := c3.apply_first_timer_bonus contributor.is_first_timer
    let res := c4.calculate contributor.current_streak contributor.is_first_timer
    some (db1, res.1, res.2.1)

/-- `calculate_documentation_points`: the doc type selects the action
(falling back to `readme_update`); flat bonuses only. -/
def calculate_documentation_points (db : GamificationDatabase) (github_username : String)
    (doc_data : ActionData) : Option (GamificationDatabase × ℤ × ℚ) :=
  let r := get_or_create_contributor db github_username
  let db1 := r.1
  let contributor := r.2
  let doc_type := doc_data.doc_type.getD "readme"
  let action :=
    if doc_type == "readme" then "readme_update"
    else if doc_type == "tutorial" then "tutorial_created"
    else if doc_type == "video" then "video_demo"
    else "readme_update"
  let c1 := PointsCalculator.init (get_action_points db1 action)
  let c2 := c1.apply_streak_bonus contributor.current_streak
  let c3 := c2.apply_first_timer_bonus contributor.is_first_timer
  let res := c3.calculate contributor.current_streak contributor.is_first_timer
  some (db1, res.1, res.2.1)

/-- List-level `startswith` check. -/
def strStarts : List Char → List Char → Bool
  | _, [] => true
  | [], _ :: _ => false
  | c :: cs, d :: ds => c == d && strStarts cs ds

/-- Python `haystack.startswith(pat)` — note the argument order: the first
string is the haystack. -/
def pyStarts (s pat : String) : Bool :=
  strStarts s.data pat.data

/-- `award_points`: resolve the contributor, dispatch on the action type,
persist the contribution with `int(points / multiplier)` as the stored base
when the multiplier is positive, evaluate badges, and re-read the
contributor for the returned totals. -/
def award_points (db : GamificationDatabase) (github_username : String)
    (action_type : String) (action_data : ActionData) (today : ℤ) :
    Option (GamificationDatabase × ScoringResult) :=
  let r0 := get_or_create_contributor db github_username
  let db1 := r0.1
  let contributor := r0.2
  let dispatched : Option (GamificationDatabase × ℤ × ℚ) :=
    if action_type == "pr_merged" ∨ action_type == "pr_created" then
      calculate_pr_merged_points db1 github_username action_data
    else if pyStarts action_type "review_" then
      calculate_code_review_points db1 github_username action_data
    else if action_type == "issue_closed" ∨ action_type == "security_fix" then
      calculate_issue_points db1 github_username action_data
    else if action_type == "readme_update" ∨ action_type == "tutorial_created"
        ∨ action_type == "video_demo" then
      calculate_documentation_points db1 github_username action_data
    else
      let c1 := PointsCalculator.init (get_action_points db1 action_type)
      let c2 := c1.apply_streak_bonus contributor.current_streak
      let c3 := c2.apply_first_timer_bonus contributor.is_first_timer
      let res := c3.calculate contributor.current_streak contributor.is_first_timer
      some (db1, res.1, res.2.1)
  match dispatched with
  | none => none
  | some (db2, points, multiplier) =>
    let stored_base :=
      if multiplier > 0 then pyTrunc (flDiv (fl ((points : ℚ))) multiplier) else points
    let r1 := add_contribution db2 contributor.id action_type stored_base multiplier today
    let db3 := r1.1
    let contribution_id := r1.2
    match check_and_award_badges db3 contributor.id with
    | none => none
    | some (db4, new_badges) =>
      match get_contributor_by_username db4 github_username with
      | none => none
      | some updated =>
        some (db4,
          { contribution_id := contribution_id
            points_earned := points
            total_points := updated.total_points
            current_streak := updated.current_streak
            new_badges := new_badges.map (fun b => b.name) })

end PointsService

theorem pyTrunc_11 : pyTrunc (6567749456581973 / 562949953421312) = 11 :=
  pyTrunc_of_nonneg (by norm_num) (by norm_num) (by norm_num)

theorem pyTrunc_30 : pyTrunc (30 : ℚ) = 30 := by
  have h := pyTrunc_intCast 30
  push_cast at h
  exact h

theorem pyTrunc_33 : pyTrunc (33 : ℚ) = 33 := by
  have h := pyTrunc_intCast 33
  push_cast at h
  exact h

/-- A ledger whose action catalog prices `issue_closed` at 10 base points
and which has no contributors, contributions or badges yet. -/
def dbIssueCatalog : GamificationDatabase :=
  { contributors := []
    contributions := []
    badges := []
    contributor_badges := []
    action_types := [{ action_name := "issue_closed", base_points := 10, category := "issues" }]
    next_contributor_id := 1 }

/-- An `issue_closed` event with priority CRITICAL and no timestamps. -/
def criticalIssueData : ActionData :=
  { priority := some "CRITICAL"
    is_bug_fix := false
    is_security := false
    created_at := none
    completed_at := none
    review_type := none
    has_performance_suggestion := false
    is_approval := false
    doc_type := none }

theorem parse_critical : parsePriority "CRITICAL" = some Priority.CRITICAL := by
  decide

theorem dispatch_not_pr :
    (("issue_closed" : String) = "pr_merged" ∨ ("issue_closed" : String) = "pr_created") = False :=
  eq_false (by decide)

theorem dispatch_not_review : PointsService.pyStarts "issue_closed" "review_" = false := by
  decide

theorem dispatch_is_issue :
    (("issue_closed" : String) = "issue_closed" ∨ ("issue_closed" : String) = "security_fix") = True :=
  eq_true (by decide)

/-- C1: the claim (spec §8) requires `total_points` after N `award_points`
calls to equal the sum of the returned `points_earned` values; the spec
itself flags the stored-base back-division as a defect of the code.  One
call from an empty ledger refutes the equality as implemented: a CRITICAL
`issue_closed` for a first-timer with base 10 returns
`points_earned = int(10*3.0) + 5 = 35`, but the service stores
`base = int(35/3.0) = 11` and credits `int(11*3.0) = 33` to the ledger, so
`total_points = 33 ≠ 35`. -/
theorem C1_award_points_total_mismatch :
    (PointsService.award_points dbIssueCatalog "alice" "issue_closed" criticalIssueData 100).map
        (fun r => (r.2.points_earned, r.2.total_points))
      = some (35, 33) := by
  norm_num [PointsService.award_points, PointsService.calculate_issue_points,
    GamificationDatabase.get_or_create_contributor, GamificationDatabase.get_action_points,
    GamificationDatabase.add_contribution, GamificationDatabase.update_contributor_points,
    GamificationDatabase.update_contributor_streak, GamificationDatabase.check_and_award_badges,
    GamificationDatabase.find_contributor, GamificationDatabase.get_all_badges,
    GamificationDatabase.get_contributor_by_username,
    dbIssueCatalog, criticalIssueData, parse_critical, dispatch_not_pr,
    dispatch_not_review, dispatch_is_issue,
    PointsCalculator.init, PointsCalculator.apply_priority_multiplier,
    PointsCalculator.apply_speed_bonus, PointsCalculator.apply_streak_bonus,
    PointsCalculator.apply_first_timer_bonus, PointsCalculator.calculate,
    Priority.value, STREAK_BONUS_DAYS, STREAK_BONUS_POINTS, FIRST_TIMER_BONUS,
    flMul, flDiv, fl_one, fl_three, fl_ten, fl_eleven, fl_thirty, fl_thirtythree,
    fl_thirtyfive, fl_thirtyfive_thirds, pyTrunc_11, pyTrunc_30, pyTrunc_33,
    List.find?]

theorem find?_map_id_pres {l : List Contributor} {cid : ℕ} {g : Contributor → Contributor}
    (hg : ∀ c, (g c).id = c.id) :
    (l.map g).find? (fun c => c.id == cid) = (l.find? (fun c => c.id == cid)).map g := by
  induction l with
  | nil => simp
  | cons a t ih =>
    have hpe : ((g a).id == cid) = (a.id == cid) := by rw [hg]
    cases h : (a.id == cid) with
    | true =>
      simp [List.map_cons, List.find?_cons, hpe, h]
    | false =>
      simp [List.map_cons, List.find?_cons, hpe, h, ih]

theorem map_noop {α : Type} {l : List α} {f : α → α} (h : ∀ x ∈ l, f x = x) :
    l.map f = l := by
  induction l with
  | nil => rfl
  | cons a t ih =>
    rw [List.map_cons, h a (by simp), ih (fun x hx => h x (by simp [hx]))]

theorem find?_map_upd (l : List Contributor) (cid : ℕ) (f : Contributor → Contributor)
    (hf : ∀ c, (f c).id = c.id) :
    (l.map (fun c => if c.id == cid then f c else c)).find? (fun c => c.id == cid)
      = (l.find? (fun c => c.id == cid)).map (fun c => if c.id == cid then f c else c) := by
  have hg : ∀ c : Contributor, ((fun c => if c.id == cid then f c else c) c).id = c.id := by
    intro c
    by_cases h : (c.id == cid) = true <;> simp [h, hf]
  exact find?_map_id_pres (g := fun c => if c.id == cid then f c else c) hg

theorem find_after_upd (db : GamificationDatabase) (cid : ℕ) (c : Contributor)
    (f : Contributor → Contributor) (hf : ∀ x, (f x).id = x.id)
    (hc0 : db.contributors.find? (fun x => x.id == cid) = some c) :
    (db.contributors.map (fun x => if x.id == cid then f x else x)).find?
        (fun x => x.id == cid)
      = some (f c) := by
  rw [find?_map_upd db.contributors cid f hf, hc0]
  have hpc : (c.id == cid) = true := by
    have h := List.find?_some (p := fun (x : Contributor) => x.id == cid) hc0
    simpa using h
  simp only [Option.map_some']
  rw [if_pos hpc]

/-- C3: when the contributor exists, `update_contributor_streak` sets
`current_streak` to 1 with no prior date, to the previous streak + 1 on a
one-day gap, leaves it unchanged on a zero-day gap, and resets it to 1
otherwise; it sets `longest_streak` to the running maximum
`max longest current`, clears `is_first_timer`, and stamps
`last_contribution_date = today`. -/
theorem C3_update_streak_cases (db : GamificationDatabase) (cid : ℕ) (today : ℤ)
    (c : Contributor) (hc : db.find_contributor cid = some c) :
    (db.update_contributor_streak cid today).find_contributor cid
      = some { c with
          current_streak :=
            match c.last_contribution_date with
            | none => 1
            | some d =>
              if today - d = 1 then c.current_streak + 1
              else if today - d = 0 then c.current_streak
              else 1
          longest_streak := max c.longest_streak
            (match c.last_contribution_date with
             | none => 1
             | some d =>
               if today - d = 1 then c.current_streak + 1
               else if today - d = 0 then c.current_streak
               else 1)
          last_contribution_date := some today
          is_first_timer := false } := by
  have hc0 : db.contributors.find? (fun x => x.id == cid) = some c := hc
  have hpc : (c.id == cid) = true := by
    have h := List.find?_some (p := fun (x : Contributor) => x.id == cid) hc0
    simpa using h
  unfold GamificationDatabase.update_contributor_streak
  rw [hc0]
  unfold GamificationDatabase.find_contributor
  show (db.contributors.map _).find? (fun (x : Contributor) => x.id == cid) = _
  have key := find_after_upd db cid c
    (fun x =>
      { x with
        current_streak :=
          match c.last_contribution_date with
          | some last_date =>
            let days_diff := today - last_date
            if days_diff = 1 then c.current_streak + 1
            else if days_diff = 0 then c.current_streak
            else 1
          | none => 1
        longest_streak := max x.longest_streak
          (match c.last_contribution_date with
           | some last_date =>
             let days_diff := today - last_date
             if days_diff = 1 then c.current_streak + 1
             else if days_diff = 0 then c.current_streak
             else 1
           | none => 1)
        last_contribution_date := some today
        is_first_timer := false })
    (fun x => rfl) hc0
  rw [key]
  congr 1
  cases c.last_contribution_date <;> simp

/-- A database state used as a concrete fixture: one contributor with a
three-day streak last active on day 50. -/
def aliceContributor : Contributor :=
  { id := 1
    github_username := "alice"
    total_points := 20
    current_streak := 3
    longest_streak := 3
    last_contribution_date := some 50
    is_first_timer := false }

def dbAlice : GamificationDatabase :=
  { contributors := [aliceContributor]
    contributions := []
    badges := []
    contributor_badges := []
    action_types := []
    next_contributor_id := 2 }

/-- C3 witness: the fixture contributor updated on day 51 (a one-day gap:
streak 3 becomes 4). -/
theorem C3_update_streak_witness :
    dbAlice.find_contributor 1 = some aliceContributor
    ∧ (dbAlice.update_contributor_streak 1 51).find_contributor 1
        = some { aliceContributor with
            current_streak :=
              match aliceContributor.last_contribution_date with
              | none => 1
              | some d =>
                if (51:ℤ) - d = 1 then aliceContributor.current_streak + 1
                else if (51:ℤ) - d = 0 then aliceContributor.current_streak
                else 1
            longest_streak := max aliceContributor.longest_streak
              (match aliceContributor.last_contribution_date with
               | none => 1
               | some d =>
                 if (51:ℤ) - d = 1 then aliceContributor.current_streak + 1
                 else if (51:ℤ) - d = 0 then aliceContributor.current_streak
                 else 1)
            last_contribution_date := some 51
            is_first_timer := false } :=
  ⟨by decide, C3_update_streak_cases dbAlice 1 51 aliceContributor (by decide)⟩

/-- C8: the claim calls ledger mutations with a missing contributor id "a
fatal programming error"; the code instead returns normally and changes
nothing — `update_contributor_streak` has an explicit early `return` when
the row is missing, and `update_contributor_points` runs an UPDATE that
matches zero rows.  On the empty database both mutations return the
database unchanged and no error state exists. -/
theorem C8_counterexample :
    (GamificationDatabase.update_contributor_points
        { contributors := [], contributions := [], badges := [], contributor_badges := [],
          action_types := [], next_contributor_id := 1 } 7 5
      = { contributors := [], contributions := [], badges := [], contributor_badges := [],
          action_types := [], next_contributor_id := 1 })
    ∧ (GamificationDatabase.update_contributor_streak
        { contributors := [], contributions := [], badges := [], contributor_badges := [],
          action_types := [], next_contributor_id := 1 } 7 100
      = { contributors := [], contributions := [], badges := [], contributor_badges := [],
          action_types := [], next_contributor_id := 1 }) := by
  constructor <;> decide

/-- C8 (amended): a read-only lookup of a non-existent handle returns
`none` rather than an error, and the ledger mutations
(`update_contributor_points`, `update_contributor_streak`) invoked with a
contributor id that matches no row are silent no-ops that leave the
database unchanged — not fatal errors. -/
theorem C8_missing_handle_and_id (db : GamificationDatabase) (username : String)
    (cid : ℕ) (delta today : ℤ)
    (hname : ∀ c ∈ db.contributors, c.github_username ≠ username)
    (hid : ∀ c ∈ db.contributors, c.id ≠ cid) :
    db.get_contributor_by_username username = none
    ∧ db.update_contributor_points cid delta = db
    ∧ db.update_contributor_streak cid today = db := by
  have hfind : db.contributors.find? (fun c => c.id == cid) = none := by
    rw [List.find?_eq_none]
    intro x hx
    simp [hid x hx]
  refine ⟨?_, ?_, ?_⟩
  · unfold GamificationDatabase.get_contributor_by_username
    rw [List.find?_eq_none]
    intro x hx
    simp [hname x hx]
  · unfold GamificationDatabase.update_contributor_points
    rw [map_noop (by
      intro x hx
      rw [if_neg (by simp [hid x hx])])]
  · unfold GamificationDatabase.update_contributor_streak
    rw [hfind]

/-- C8 witness: the amended statement applied to the one-contributor
fixture with an unknown handle and an unknown id. -/
theorem C8_missing_handle_and_id_witness :
    ((∀ c ∈ dbAlice.contributors, c.github_username ≠ "bob")
      ∧ (∀ c ∈ dbAlice.contributors, c.id ≠ 7))
    ∧ (dbAlice.get_contributor_by_username "bob" = none
      ∧ dbAlice.update_contributor_points 7 5 = dbAlice
      ∧ dbAlice.update_contributor_streak 7 100 = dbAlice) :=
  ⟨⟨by decide, by decide⟩,
   C8_missing_handle_and_id dbAlice "bob" 7 5 100 (by decide) (by decide)⟩

/-!
Reachability: every mutation of the database performed by the service layer
goes through the primitive operations below (`award_points` composes
`get_or_create_contributor`, `add_contribution` — itself
`update_contributor_points` then `update_contributor_streak` — and
`check_and_award_badges`), so states reachable through these operations
from the initial state cover everything the system can produce.
-/

inductive LedgerOp where
  | getOrCreate (username : String)
  | updatePoints (cid : ℕ) (delta : ℤ)
  | updateStreak (cid : ℕ) (today : ℤ)
  | addContribution (cid : ℕ) (action_type : String) (points : ℤ) (multiplier : ℚ)
      (today : ℤ)
  | awardBadgeOp (cid bid : ℕ)
  | checkBadges (cid : ℕ)

/-- One database operation. -/
def applyOp (db : GamificationDatabase) : LedgerOp → GamificationDatabase
  | LedgerOp.getOrCreate u => (db.get_or_create_contributor u).1
  | LedgerOp.updatePoints cid d => db.update_contributor_points cid d
  | LedgerOp.updateStreak cid t => db.update_contributor_streak cid t
  | LedgerOp.addContribution cid a p m t => (db.add_contribution cid a p m t).1
  | LedgerOp.awardBadgeOp cid bid => (db.award_badge cid bid).1
  | LedgerOp.checkBadges cid =>
    match db.check_and_award_badges cid with
    | some r => r.1
    | none => db

/-- The initial database: the static badge and action catalogs, and no
contributors, contributions or awarded badges. -/
def initDB (badges : List Badge) (catalog : List ActionType) : GamificationDatabase :=
  { contributors := []
    contributions := []
    badges := badges
    contributor_badges := []
    action_types := catalog
    next_contributor_id := 1 }

def applyOps (db : GamificationDatabase) (ops : List LedgerOp) : GamificationDatabase :=
  ops.foldl applyOp db

/-- The per-contributor streak invariant. -/
def StreakInv (db : GamificationDatabase) : Prop :=
  ∀ c ∈ db.contributors, c.current_streak ≤ c.longest_streak

theorem streakInv_of_contributors_eq {db db2 : GamificationDatabase}
    (h : db2.contributors = db.contributors) (hi : StreakInv db) : StreakInv db2 := by
  intro c hc
  exact hi c (h ▸ hc)

theorem streakInv_map {db : GamificationDatabase} {f : Contributor → Contributor}
    (hi : StreakInv db)
    (hf : ∀ c, c.current_streak ≤ c.longest_streak →
      (f c).current_streak ≤ (f c).longest_streak) :
    StreakInv { db with contributors := db.contributors.map f } := by
  intro c hc
  simp only [List.mem_map] at hc
  obtain ⟨a, ha, rfl⟩ := hc
  exact hf a (hi a ha)

theorem streakInv_goc (db : GamificationDatabase) (u : String) (hi : StreakInv db) :
    StreakInv (db.get_or_create_contributor u).1 := by
  unfold GamificationDatabase.get_or_create_contributor
  cases db.contributors.find? (fun c => c.github_username == u) with
  | some c => exact hi
  | none =>
    intro c hc
    simp only [List.mem_append, List.mem_singleton] at hc
    rcases hc with hc | rfl
    · exact hi c hc
    · simp

theorem streakInv_updPoints (db : GamificationDatabase) (cid : ℕ) (d : ℤ)
    (hi : StreakInv db) : StreakInv (db.update_contributor_points cid d) := by
  unfold GamificationDatabase.update_contributor_points
  refine streakInv_map hi ?_
  intro c hc
  by_cases h : (c.id == cid) = true <;> simp [h, hc]

theorem streakInv_updStreak (db : GamificationDatabase) (cid : ℕ) (t : ℤ)
    (hi : StreakInv db) : StreakInv (db.update_contributor_streak cid t) := by
  unfold GamificationDatabase.update_contributor_streak
  cases db.contributors.find? (fun c => c.id == cid) with
  | none => exact hi
  | some row =>
    refine streakInv_map hi ?_
    intro c hc
    by_cases h : (c.id == cid) = true <;> simp [h, hc, le_max_right]

theorem contributors_award_badge (db : GamificationDatabase) (cid bid : ℕ) :
    ((db.award_badge cid bid).1).contributors = db.contributors := by
  unfold GamificationDatabase.award_badge
  split <;> rfl

theorem contributors_badgeStep_foldl (cid : ℕ) (ctr : Contributor) :
    ∀ (bs : List Badge) (acc : GamificationDatabase × List Badge),
      ((bs.foldl (GamificationDatabase.badgeStep cid ctr) acc).1).contributors
        = (acc.1).contributors := by
  intro bs
  induction bs with
  | nil => intro acc; rfl
  | cons b t ih =>
    intro acc
    rw [List.foldl_cons, ih]
    show (GamificationDatabase.badgeStep cid ctr acc b).1.contributors = acc.1.contributors
    unfold GamificationDatabase.badgeStep
    by_cases h1 : (cid, b.id) ∈ acc.1.contributor_badges
    · simp [h1]
    · by_cases h2 : acc.1.check_badge_criteria ctr b.criteria = true
      · simp only [h1, if_false, h2, if_true, ite_false, ite_true]
        split <;> simp [contributors_award_badge]
      · simp [h1, h2]

theorem streakInv_addContribution (db : GamificationDatabase) (cid : ℕ) (a : String)
    (p : ℤ) (m : ℚ) (t : ℤ) (hi : StreakInv db) :
    StreakInv (db.add_contribution cid a p m t).1 := by
  unfold GamificationDatabase.add_contribution
  exact streakInv_updStreak _ _ _ (streakInv_updPoints _ _ _
    (streakInv_of_contributors_eq rfl hi))

theorem streakInv_checkBadges (db : GamificationDatabase) (cid : ℕ) (hi : StreakInv db) :
    StreakInv (match db.check_and_award_badges cid with
      | some r => r.1
      | none => db) := by
  unfold GamificationDatabase.check_and_award_badges
  cases GamificationDatabase.find_contributor db cid with
  | none => exact hi
  | some ctr =>
    refine streakInv_of_contributors_eq ?_ hi
    exact contributors_badgeStep_foldl cid ctr _ _

theorem streakInv_applyOp (db : GamificationDatabase) (op : LedgerOp)
    (hi : StreakInv db) : StreakInv (applyOp db op) := by
  cases op with
  | getOrCreate u => exact streakInv_goc db u hi
  | updatePoints cid d => exact streakInv_updPoints db cid d hi
  | updateStreak cid t => exact streakInv_updStreak db cid t hi
  | addContribution cid a p m t => exact streakInv_addContribution db cid a p m t hi
  | awardBadgeOp cid bid =>
    exact streakInv_of_contributors_eq (contributors_award_badge db cid bid) hi
  | checkBadges cid => exact streakInv_checkBadges db cid hi

theorem streakInv_applyOps (ops : List LedgerOp) :
    ∀ (db : GamificationDatabase), StreakInv db → StreakInv (applyOps db ops) := by
  induction ops with
  | nil => intro db hi; exact hi
  | cons op t ih =>
    intro db hi
    exact ih (applyOp db op) (streakInv_applyOp db op hi)

/-- C9: in every database state reachable from the initial (zero) state
through the ledger operations, every contributor's `longest_streak` is at
least its `current_streak`. -/
theorem C9_longest_streak_invariant (badges : List Badge) (catalog : List ActionType)
    (ops : List LedgerOp) (c : Contributor)
    (hc : c ∈ (applyOps (initDB badges catalog) ops).contributors) :
    c.current_streak ≤ c.longest_streak := by
  refine streakInv_applyOps ops (initDB badges catalog) ?_ c hc
  intro x hx
  simp [initDB] at hx

/-- C9 witness: after creating one contributor, the created zero-state row
satisfies the invariant. -/
theorem C9_longest_streak_invariant_witness :
    ({ id := 1, github_username := "alice", total_points := 0, current_streak := 0,
       longest_streak := 0, last_contribution_date := none,
       is_first_timer := true } : Contributor)
        ∈ (applyOps (initDB [] []) [LedgerOp.getOrCreate "alice"]).contributors
    ∧ ({ id := 1, github_username := "alice", total_points := 0, current_streak := 0,
         longest_streak := 0, last_contribution_date := none,
         is_first_timer := true } : Contributor).current_streak
        ≤ ({ id := 1, github_username := "alice", total_points := 0, current_streak := 0,
             longest_streak := 0, last_contribution_date := none,
             is_first_timer := true } : Contributor).longest_streak :=
  ⟨by decide,
   C9_longest_streak_invariant [] [] [LedgerOp.getOrCreate "alice"] _ (by decide)⟩

theorem cb_goc (db : GamificationDatabase) (u : String) :
    ((db.get_or_create_contributor u).1).contributor_badges = db.contributor_badges := by
  unfold GamificationDatabase.get_or_create_contributor
  cases db.contributors.find? (fun c => c.github_username == u) <;> rfl

theorem cb_updPoints (db : GamificationDatabase) (cid : ℕ) (d : ℤ) :
    (db.update_contributor_points cid d).contributor_badges = db.contributor_badges := rfl

theorem cb_updStreak (db : GamificationDatabase) (cid : ℕ) (t : ℤ) :
    (db.update_contributor_streak cid t).contributor_badges = db.contributor_badges := by
  unfold GamificationDatabase.update_contributor_streak
  cases db.contributors.find? (fun c => c.id == cid) <;> rfl

theorem cb_addContribution (db : GamificationDatabase) (cid : ℕ) (a : String) (p : ℤ)
    (m : ℚ) (t : ℤ) :
    ((db.add_contribution cid a p m t).1).contributor_badges = db.contributor_badges := by
  unfold GamificationDatabase.add_contribution
  rw [cb_updStreak, cb_updPoints]

theorem nodup_award_badge (db : GamificationDatabase) (cid bid : ℕ)
    (h : db.contributor_badges.Nodup) :
    ((db.award_badge cid bid).1).contributor_badges.Nodup := by
  unfold GamificationDatabase.award_badge
  split
  · exact h
  · rename_i hmem
    rw [List.nodup_append]
    refine ⟨h, List.nodup_singleton _, ?_⟩
    intro x hx hx2
    simp only [List.mem_singleton] at hx2
    subst hx2
    exact hmem hx

theorem nodup_badgeStep_foldl (cid : ℕ) (ctr : Contributor) :
    ∀ (bs : List Badge) (acc : GamificationDatabase × List Badge),
      (acc.1).contributor_badges.Nodup →
      ((bs.foldl (GamificationDatabase.badgeStep cid ctr) acc).1).contributor_badges.Nodup := by
  intro bs
  induction bs with
  | nil => intro acc h; exact h
  | cons x t ih =>
    intro acc h
    rw [List.foldl_cons]
    apply ih
    show ((GamificationDatabase.badgeStep cid ctr acc x).1).contributor_badges.Nodup
    unfold GamificationDatabase.badgeStep
    by_cases h1 : (cid, x.id) ∈ (acc.1).contributor_badges
    · simpa [h1] using h
    · by_cases h2 : (acc.1).check_badge_criteria ctr x.criteria = true
      · simp only [h1, h2, if_false, if_true, ite_true, ite_false]
        split <;> exact nodup_award_badge _ _ _ h
      · simpa [h1, h2] using h

/-- The pair-uniqueness invariant on awarded badges. -/
def PairNodup (db : GamificationDatabase) : Prop :=
  db.contributor_badges.Nodup

theorem pairNodup_applyOp (db : GamificationDatabase) (op : LedgerOp)
    (h : PairNodup db) : PairNodup (applyOp db op) := by
  cases op with
  | getOrCreate u =>
    show ((db.get_or_create_contributor u).1).contributor_badges.Nodup
    rw [cb_goc]
    exact h
  | updatePoints cid d =>
    show (db.update_contributor_points cid d).contributor_badges.Nodup
    rw [cb_updPoints]
    exact h
  | updateStreak cid t =>
    show (db.update_contributor_streak cid t).contributor_badges.Nodup
    rw [cb_updStreak]
    exact h
  | addContribution cid a p m t =>
    show ((db.add_contribution cid a p m t).1).contributor_badges.Nodup
    rw [cb_addContribution]
    exact h
  | awardBadgeOp cid bid => exact nodup_award_badge db cid bid h
  | checkBadges cid =>
    show GamificationDatabase.contributor_badges (match db.check_and_award_badges cid with
      | some r => r.1
      | none => db) |>.Nodup
    unfold GamificationDatabase.check_and_award_badges
    cases GamificationDatabase.find_contributor db cid with
    | none => exact h
    | some ctr => exact nodup_badgeStep_foldl cid ctr _ _ h

theorem pairNodup_applyOps (ops : List LedgerOp) :
    ∀ (db : GamificationDatabase), PairNodup db → PairNodup (applyOps db ops) := by
  induction ops with
  | nil => intro db h; exact h
  | cons op t ih =>
    intro db h
    exact ih (applyOp db op) (pairNodup_applyOp db op h)

theorem badge_foldl_fresh (cid : ℕ) (ctr : Contributor) (S : List (ℕ × ℕ)) :
    ∀ (bs : List Badge) (acc : GamificationDatabase × List Badge),
      (∀ p ∈ S, p ∈ (acc.1).contributor_badges) →
      (∀ b ∈ acc.2, (cid, b.id) ∉ S) →
      ∀ b ∈ (bs.foldl (GamificationDatabase.badgeStep cid ctr) acc).2,
        (cid, b.id) ∉ S := by
  intro bs
  induction bs with
  | nil => intro acc hS hacc b hb; exact hacc b hb
  | cons x t ih =>
    intro acc hS hacc
    rw [List.foldl_cons]
    apply ih
    · intro p hp
      have h0 := hS p hp
      show p ∈ ((GamificationDatabase.badgeStep cid ctr acc x).1).contributor_badges
      unfold GamificationDatabase.badgeStep
      by_cases h1 : (cid, x.id) ∈ (acc.1).contributor_badges
      · simpa [h1] using h0
      · by_cases h2 : (acc.1).check_badge_criteria ctr x.criteria = true
        · simp only [h1, h2, if_false, if_true, ite_true, ite_false]
          split <;>
            · show p ∈ (((acc.1).award_badge cid x.id).1).contributor_badges
              unfold GamificationDatabase.award_badge
              rw [if_neg h1]
              simp [h0]
        · simpa [h1, h2] using h0
    · intro b hb
      by_cases h1 : (cid, x.id) ∈ (acc.1).contributor_badges
      · refine hacc b ?_
        unfold GamificationDatabase.badgeStep at hb
        simpa [h1] using hb
      · by_cases h2 : (acc.1).check_badge_criteria ctr x.criteria = true
        · unfold GamificationDatabase.badgeStep at hb
          simp only [h1, h2, if_false, if_true, ite_true, ite_false] at hb
          have hb2 : b ∈ acc.2 ++ [x] ∨ b ∈ acc.2 := by
            revert hb
            split
            · intro hb; exact Or.inl hb
            · intro hb; exact Or.inr hb
          rcases hb2 with hb2 | hb2
          · rw [List.mem_append] at hb2
            rcases hb2 with hb3 | hb3
            · exact hacc b hb3
            · simp only [List.mem_singleton] at hb3
              subst hb3
              intro hcon
              exact h1 (hS _ hcon)
          · exact hacc b hb2
        · refine hacc b ?_
          unfold GamificationDatabase.badgeStep at hb
          simpa [h1, h2] using hb

/-- C5: (i) in every state reachable through the ledger operations, at most
one `ContributorBadge` row exists for any (contributor, badge) pair;
(ii) a second `award_badge` attempt on a pair already present is not an
error: it returns `false` and leaves the database unchanged;
(iii) `check_and_award_badges` never includes a badge the contributor
already holds in its newly-awarded result. -/
theorem count_le_one_of_nodup {α : Type} [BEq α] [LawfulBEq α] {l : List α}
    (h : l.Nodup) (a : α) : l.count a ≤ 1 := by
  induction l with
  | nil => simp
  | cons x t ih =>
    rcases List.nodup_cons.mp h with ⟨hx, ht⟩
    rw [List.count_cons]
    by_cases he : x = a
    · subst he
      have hz : t.count x = 0 := List.count_eq_zero.mpr hx
      simp [hz]
    · simp [he, ih ht]

theorem C5_badge_at_most_once :
    (∀ (badges : List Badge) (catalog : List ActionType) (ops : List LedgerOp)
        (cid bid : ℕ),
      ((applyOps (initDB badges catalog) ops).contributor_badges).count (cid, bid) ≤ 1)
    ∧ (∀ (db : GamificationDatabase) (cid bid : ℕ),
        (cid, bid) ∈ db.contributor_badges → db.award_badge cid bid = (db, false))
    ∧ (∀ (db db2 : GamificationDatabase) (cid : ℕ) (newly : List Badge),
        db.check_and_award_badges cid = some (db2, newly) →
        ∀ b ∈ newly, (cid, b.id) ∉ db.contributor_badges) := by
  refine ⟨?_, ?_, ?_⟩
  · intro badges catalog ops cid bid
    have hnd : PairNodup (applyOps (initDB badges catalog) ops) := by
      refine pairNodup_applyOps ops _ ?_
      simp [PairNodup, initDB]
    exact count_le_one_of_nodup hnd (cid, bid)
  · intro db cid bid hmem
    unfold GamificationDatabase.award_badge
    rw [if_pos hmem]
  · intro db db2 cid newly hca b hb
    unfold GamificationDatabase.check_and_award_badges at hca
    revert hca
    cases hfc : GamificationDatabase.find_contributor db cid with
    | none => intro hca; cases hca
    | some ctr =>
      intro hca
      injection hca with h2
      refine badge_foldl_fresh cid ctr db.contributor_badges
        (GamificationDatabase.get_all_badges db) (db, [])
        (fun p hp => hp) (fun b hb => by cases hb) b ?_
      rw [h2]
      exact hb

/-- A badge with no criteria restrictions. -/
def simpleBadge : Badge :=
  { id := 1
    name := "First Contribution"
    tier := 1
    points_required := 0
    criteria :=
      { min_points := none
        min_streak := none
        is_first_contribution := false
        category := none
        action := none
        count := none } }

/-- A fixture in which the fixture contributor already holds the badge. -/
def dbBadgeHeld : GamificationDatabase :=
  { contributors := [aliceContributor]
    contributions := []
    badges := [simpleBadge]
    contributor_badges := [(1, 1)]
    action_types := []
    next_contributor_id := 2 }

/-- C5 witness: one award from the initial state leaves a single row;
a second award on the held pair reports `false` and changes nothing; and
`check_and_award_badges` on the held pair returns no newly awarded badge. -/
theorem C5_badge_at_most_once_witness :
    (((applyOps (initDB [simpleBadge] []) [LedgerOp.awardBadgeOp 1 1]).contributor_badges).count
        (1, 1) ≤ 1)
    ∧ ((1, 1) ∈ dbBadgeHeld.contributor_badges
        ∧ dbBadgeHeld.award_badge 1 1 = (dbBadgeHeld, false))
    ∧ (dbBadgeHeld.check_and_award_badges 1 = some (dbBadgeHeld, [])
        ∧ ∀ b ∈ ([] : List Badge), (1, b.id) ∉ dbBadgeHeld.contributor_badges) :=
  ⟨C5_badge_at_most_once.1 [simpleBadge] [] [LedgerOp.awardBadgeOp 1 1] 1 1,
   ⟨by decide, C5_badge_at_most_once.2.1 dbBadgeHeld 1 1 (by decide)⟩,
   ⟨by decide, C5_badge_at_most_once.2.2 dbBadgeHeld dbBadgeHeld 1 [] (by decide)⟩⟩

/-!
Embedding of `scripts/assign_points.py` (the event-driven scoring script).

The filesystem is a `World`: the config file, the event payload, the
processed-ids JSON list and the leaderboard JSON object, plus two flags for
write failures (permission or I/O errors when saving the leaderboard or the
processed ids).  A run returns the process exit code, the resulting files,
and the ordered trace of durable writes it performed.
-/

structure Config where
  basic_review : ℤ
  detailed_review : ℤ
  performance_improvement : ℤ
  approve_pr : ℤ
  pr_merged : ℤ
  issue_resolved : ℤ
  documentation : ℤ
  security_fix : ℤ
deriving DecidableEq

/-- The state of `scripts/config_points.yml`: missing file, invalid YAML or
structure, or a well-formed points table. -/
inductive ConfigSrc where
  | missing
  | invalid
  | ok (c : Config)
deriving DecidableEq

/-- `load_config`: `none` models the `sys.exit(1)` paths (missing file,
invalid YAML, missing `points` section). -/
def load_config : ConfigSrc → Option Config
  | ConfigSrc.missing => none
  | ConfigSrc.invalid => none
  | ConfigSrc.ok c => some c

structure GHUser where
  login : Option String
deriving DecidableEq

structure Review where
  id : Option ℕ
  body : Option String
  state : Option String
  user : Option GHUser
deriving DecidableEq

structure Comment where
  id : Option ℕ
  body : Option String
  user : Option GHUser
deriving DecidableEq

structure Label where
  name : Option String
deriving DecidableEq

structure PullRequest where
  number : Option ℕ
  merged : Bool
  user : Option GHUser
  title : Option String
  body : Option String
  changed_files : ℕ
  labels : List Label
deriving DecidableEq

/-- A GitHub issue object; `has_pull_request` records whether the payload's
issue object carries a `pull_request` key (meaning the "issue" is a PR). -/
structure Issue where
  number : Option ℕ
  user : Option GHUser
  labels : List Label
  has_pull_request : Bool
deriving DecidableEq

structure Event where
  action : Option String
  review : Option Review
  comment : Option Comment
  pull_request : Option PullRequest
  issue : Option Issue
  sender : Option GHUser
deriving DecidableEq

/-- The state of `GITHUB_EVENT_PATH`: unset/missing file, or a payload. -/
inductive EventSrc where
  | missingPath
  | ok (e : Event)
deriving DecidableEq

/-- Substring test on character lists. -/
def listHasSub : List Char → List Char → Bool
  | [], pat => pat.isEmpty
  | c :: t, pat => PointsService.strStarts (c :: t) pat || listHasSub t pat

/-- Python `pat in hay` on strings. -/
def pyIn (pat hay : String) : Bool :=
  listHasSub hay.data pat.data

/-- The `load_event` guard: a comment on a regular (non-PR) issue is
skipped with the no-op exit code unless the action is `closed`. -/
def commentOnNonPR (e : Event) : Bool :=
  e.comment.isSome && e.issue.isSome
    && !((e.issue.map (fun i => i.has_pull_request)).getD false)
    && (e.action.getD "" != "closed")

/-- One fallback strategy of `extract_user`: a user object whose login is
present and non-empty. -/
def loginOf (u : Option GHUser) (src : String) : Option (String × String) :=
  match u with
  | some user =>
    match user.login with
    | some l => if l ≠ "" then some (l, src) else none
    | none => none
  | none => none

/-- `extract_user`: PR author for merged-PR close events, issue author for
issue close events, then review user, comment user, and finally the
top-level sender. -/
def extract_user (e : Event) : Option (String × String) :=
  (match e.pull_request with
   | some pr =>
     if e.action = some "closed" ∧ pr.merged then loginOf pr.user "pull_request.user"
     else none
   | none => none)
  <|> (match e.issue with
   | some i =>
     if e.action = some "closed" ∧ e.pull_request = none then loginOf i.user "issue.user"
     else none
   | none => none)
  <|> (match e.review with
   | some r => loginOf r.user "review.user"
   | none => none)
  <|> (match e.comment with
   | some c => loginOf c.user "comment.user"
   | none => none)
  <|> loginOf e.sender "sender"

/-- Lower-cased label names of a PR or issue. -/
def lowerLabels (labels : List Label) : List String :=
  labels.map (fun l => pyLower (l.name.getD ""))

/-- The `security` check: exact label match or substring match. -/
def hasSecurityLabel (labels : List Label) : Bool :=
  let ls := lowerLabels labels
  decide ("security" ∈ ls) || ls.any (fun l => pyIn "security" l)

/-- Points of the merged-PR branch of `detect_points`. -/
def prEventPoints (cfg : Config) (pr : PullRequest) : ℤ :=
  let docPoints : ℤ :=
    if pr.changed_files > 0 then
      let pr_title := pyLower (pr.title.getD "")
      let pr_body := pyLower (pr.body.getD "")
      if pyIn "doc" pr_title ∨ pyIn "readme" pr_title ∨ pyIn "doc" pr_body then
        cfg.documentation
      else 0
    else 0
  let secPoints : ℤ := if hasSecurityLabel pr.labels then cfg.security_fix else 0
  cfg.pr_merged + docPoints + secPoints

/-- Points of the issue-closed branch of `detect_points`. -/
def issueEventPoints (cfg : Config) (i : Issue) : ℤ :=
  cfg.issue_resolved + (if hasSecurityLabel i.labels then cfg.security_fix else 0)

/-- `detect_points`: `none` models the `sys.exit(1)` when no user can be
extracted; otherwise the summed points and the credited user. -/
def detect_points (e : Event) (cfg : Config) : Option (ℤ × String) :=
  let action := e.action.getD ""
  let review_body := pyLower ((e.review.bind (fun r => r.body)).getD "")
  let review_state := pyLower ((e.review.bind (fun r => r.state)).getD "")
  let comment_body := pyLower ((e.comment.bind (fun c => c.body)).getD "")
  match extract_user e with
  | none => none
  | some (user, _) =>
    let eventPoints : ℤ :=
      match e.pull_request with
      | some pr => if action = "closed" ∧ pr.merged then prEventPoints cfg pr else 0
      | none =>
        match e.issue with
        | some i => if action = "closed" then issueEventPoints cfg i else 0
        | none => 0
    let reviewPoints : ℤ :=
      if pyIn "detailed" review_body then cfg.detailed_review
      else if pyIn "basic review" review_body then cfg.basic_review
      else 0
    let perfPoints : ℤ :=
      if pyIn "performance" comment_body ∨ pyIn "performance" review_body then
        cfg.performance_improvement
      else 0
    let approvePoints : ℤ :=
      if action = "submitted" ∧ review_state = "approved" then cfg.approve_pr else 0
    some (eventPoints + reviewPoints + perfPoints + approvePoints, user)

/-- An entry of `processed_ids.json`: review/comment ids stay JSON numbers,
while ids of `closed` events are stored as `"closed_<n>"` strings (the two
kinds never compare equal). -/
inductive EventKey where
  | raw (n : ℕ)
  | closedId (n : ℕ)
deriving DecidableEq

/-- Python `a or b` over the id candidates (both `None` and `0` are falsy). -/
def orFalsy (a b : Option ℕ) : Option ℕ :=
  match a with
  | some n => if n = 0 then b else some n
  | none => b

/-- The unique-id derivation: review id, else comment id, else PR number,
else issue number. -/
def deriveEventId (e : Event) : Option ℕ :=
  orFalsy (e.review.bind (fun r => r.id))
    (orFalsy (e.comment.bind (fun c => c.id))
      (orFalsy (e.pull_request.bind (fun pr => pr.number))
        (e.issue.bind (fun i => i.number))))

/-- One durable write the script performs. -/
inductive ScriptOp where
  | writeLeaderboard (user : String) (points : ℤ)
  | writeProcessed (key : EventKey)
deriving DecidableEq

structure World where
  configSrc : ConfigSrc
  eventSrc : EventSrc
  processed : List EventKey
  leaderboard : List (String × ℤ)
  lbWriteFails : Bool
  procWriteFails : Bool
deriving DecidableEq

structure RunResult where
  exit : ℕ
  processed : List EventKey
  leaderboard : List (String × ℤ)
  trace : List ScriptOp
deriving DecidableEq

/-- `leaderboard.get(user, 0)`. -/
def lbGet (lb : List (String × ℤ)) (u : String) : ℤ :=
  match lb.find? (fun p => p.1 == u) with
  | some p => p.2
  | none => 0

/-- `leaderboard[user] = v` on the JSON object. -/
def lbSet (lb : List (String × ℤ)) (u : String) (v : ℤ) : List (String × ℤ) :=
  if lb.any (fun p => p.1 == u) then
    lb.map (fun p => if p.1 == u then (p.1, v) else p)
  else lb ++ [(u, v)]

/-- `update_leaderboard`: add the awarded points to the user's tally. -/
def update_leaderboard (lb : List (String × ℤ)) (user : String) (points : ℤ) :
    List (String × ℤ) :=
  lbSet lb user (lbGet lb user + points)

/-- The composite key stored in `processed_ids.json`: ids of `closed`
events are prefixed with the action name. -/
def eventKeyOf (e : Event) (n : ℕ) : EventKey :=
  if e.action.getD "" = "closed" then EventKey.closedId n else EventKey.raw n

/-- `main` of `scripts/assign_points.py`: exit code 0 on an award, 2 on the
no-op outcomes, 1 on fatal errors; the leaderboard write happens before the
processed-ids write. -/
def runScript (w : World) : RunResult :=
  match load_config w.configSrc with
  | none => ⟨1, w.processed, w.leaderboard, []⟩
  | some cfg =>
    match w.eventSrc with
    | EventSrc.missingPath => ⟨1, w.processed, w.leaderboard, []⟩
    | EventSrc.ok e =>
      if commentOnNonPR e then ⟨2, w.processed, w.leaderboard, []⟩
      else
        match detect_points e cfg with
        | none => ⟨1, w.processed, w.leaderboard, []⟩
        | some (points, user) =>
          match deriveEventId e with
          | none => ⟨2, w.processed, w.leaderboard, []⟩
          | some n =>
            if n = 0 then ⟨2, w.processed, w.leaderboard, []⟩
            else
              if eventKeyOf e n ∈ w.processed then ⟨2, w.processed, w.leaderboard, []⟩
              else if points ≤ 0 then ⟨2, w.processed, w.leaderboard, []⟩
              else if w.lbWriteFails then ⟨1, w.processed, w.leaderboard, []⟩
              else if w.procWriteFails then
                ⟨1, w.processed, update_leaderboard w.leaderboard user points,
                 [ScriptOp.writeLeaderboard user points]⟩
              else
                ⟨0, w.processed ++ [eventKeyOf e n],
                 update_leaderboard w.leaderboard user points,
                 [ScriptOp.writeLeaderboard user points,
                  ScriptOp.writeProcessed (eventKeyOf e n)]⟩

/-- The run awards points: every stage succeeds and both writes go through. -/
def AwardOutcome (w : World) : Prop :=
  ∃ cfg e points user n,
    load_config w.configSrc = some cfg
    ∧ w.eventSrc = EventSrc.ok e
    ∧ commentOnNonPR e = false
    ∧ detect_points e cfg = some (points, user)
    ∧ deriveEventId e = some n
    ∧ n ≠ 0
    ∧ eventKeyOf e n ∉ w.processed
    ∧ 0 < points
    ∧ w.lbWriteFails = false
    ∧ w.procWriteFails = false

/-- The run is a no-op: a comment on a regular issue, an event with no
usable id, an already-processed id, or no points matched. -/
def NoopOutcome (w : World) : Prop :=
  ∃ cfg e,
    load_config w.configSrc = some cfg
    ∧ w.eventSrc = EventSrc.ok e
    ∧ (commentOnNonPR e = true
      ∨ ∃ points user,
          commentOnNonPR e = false
          ∧ detect_points e cfg = some (points, user)
          ∧ (deriveEventId e = none
            ∨ deriveEventId e = some 0
            ∨ ∃ n, deriveEventId e = some n ∧ n ≠ 0
                ∧ (eventKeyOf e n ∈ w.processed
                  ∨ (eventKeyOf e n ∉ w.processed ∧ points ≤ 0))))

/-- The run fails: bad or missing configuration, a missing event payload,
an unextractable user, or an I/O failure on one of the two writes. -/
def FatalOutcome (w : World) : Prop :=
  load_config w.configSrc = none
  ∨ (∃ cfg, load_config w.configSrc = some cfg ∧ w.eventSrc = EventSrc.missingPath)
  ∨ (∃ cfg e, load_config w.configSrc = some cfg ∧ w.eventSrc = EventSrc.ok e
      ∧ commentOnNonPR e = false ∧ detect_points e cfg = none)
  ∨ (∃ cfg e points user n,
      load_config w.configSrc = some cfg
      ∧ w.eventSrc = EventSrc.ok e
      ∧ commentOnNonPR e = false
      ∧ detect_points e cfg = some (points, user)
      ∧ deriveEventId e = some n
      ∧ n ≠ 0
      ∧ eventKeyOf e n ∉ w.processed
      ∧ 0 < points
      ∧ (w.lbWriteFails = true ∨ (w.lbWriteFails = false ∧ w.procWriteFails = true)))

theorem outcome_total (w : World) : AwardOutcome w ∨ NoopOutcome w ∨ FatalOutcome w := by
  cases hcfg : load_config w.configSrc with
  | none => exact Or.inr (Or.inr (Or.inl hcfg))
  | some cfg =>
    cases hev : w.eventSrc with
    | missingPath => exact Or.inr (Or.inr (Or.inr (Or.inl ⟨cfg, hcfg, hev⟩)))
    | ok e =>
      cases h1 : commentOnNonPR e with
      | true => exact Or.inr (Or.inl ⟨cfg, e, hcfg, hev, Or.inl h1⟩)
      | false =>
        cases hdp : detect_points e cfg with
        | none =>
          exact Or.inr (Or.inr (Or.inr (Or.inr (Or.inl ⟨cfg, e, hcfg, hev, h1, hdp⟩))))
        | some pu =>
          obtain ⟨points, user⟩ := pu
          cases hid : deriveEventId e with
          | none =>
            exact Or.inr (Or.inl ⟨cfg, e, hcfg, hev,
              Or.inr ⟨points, user, h1, hdp, Or.inl hid⟩⟩)
          | some n =>
            by_cases hn : n = 0
            · subst hn
              exact Or.inr (Or.inl ⟨cfg, e, hcfg, hev,
                Or.inr ⟨points, user, h1, hdp, Or.inr (Or.inl hid)⟩⟩)
            · by_cases hk : eventKeyOf e n ∈ w.processed
              · exact Or.inr (Or.inl ⟨cfg, e, hcfg, hev,
                  Or.inr ⟨points, user, h1, hdp,
                    Or.inr (Or.inr ⟨n, hid, hn, Or.inl hk⟩)⟩⟩)
              · by_cases hp : points ≤ 0
                · exact Or.inr (Or.inl ⟨cfg, e, hcfg, hev,
                    Or.inr ⟨points, user, h1, hdp,
                      Or.inr (Or.inr ⟨n, hid, hn, Or.inr ⟨hk, hp⟩⟩)⟩⟩)
                · have hppos : 0 < points := by omega
                  cases hlf : w.lbWriteFails with
                  | true =>
                    exact Or.inr (Or.inr (Or.inr (Or.inr (Or.inr
                      ⟨cfg, e, points, user, n, hcfg, hev, h1, hdp, hid, hn, hk, hppos,
                       Or.inl hlf⟩))))
                  | false =>
                    cases hpf : w.procWriteFails with
                    | true =>
                      exact Or.inr (Or.inr (Or.inr (Or.inr (Or.inr
                        ⟨cfg, e, points, user, n, hcfg, hev, h1, hdp, hid, hn, hk, hppos,
                         Or.inr ⟨hlf, hpf⟩⟩))))
                    | false =>
                      exact Or.inl ⟨cfg, e, points, user, n, hcfg, hev, h1, hdp, hid,
                        hn, hk, hppos, hlf, hpf⟩

theorem runScript_award_eq {w : World} {cfg : Config} {e : Event} {points : ℤ}
    {user : String} {n : ℕ}
    (hcfg : load_config w.configSrc = some cfg) (hev : w.eventSrc = EventSrc.ok e)
    (h1 : commentOnNonPR e = false) (hdp : detect_points e cfg = some (points, user))
    (hid : deriveEventId e = some n) (hn : n ≠ 0)
    (hk : eventKeyOf e n ∉ w.processed) (hp : 0 < points)
    (hlf : w.lbWriteFails = false) (hpf : w.procWriteFails = false) :
    runScript w = ⟨0, w.processed ++ [eventKeyOf e n],
      update_leaderboard w.leaderboard user points,
      [ScriptOp.writeLeaderboard user points,
       ScriptOp.writeProcessed (eventKeyOf e n)]⟩ := by
  have hnle : ¬ points ≤ 0 := by omega
  unfold runScript
  simp only [hcfg, hev, h1, hdp, hid, hn, hk, hnle, hlf, hpf, Bool.false_eq_true,
    if_false, if_true, ite_true, ite_false, not_false_eq_true]

theorem runScript_award {w : World} (h : AwardOutcome w) :
    ∃ user points eKey,
      eKey ∉ w.processed
      ∧ runScript w =
          ⟨0, w.processed ++ [eKey], update_leaderboard w.leaderboard user points,
           [ScriptOp.writeLeaderboard user points, ScriptOp.writeProcessed eKey]⟩ := by
  obtain ⟨cfg, e, points, user, n, hcfg, hev, h1, hdp, hid, hn, hk, hp, hlf, hpf⟩ := h
  exact ⟨user, points, eventKeyOf e n, hk,
    runScript_award_eq hcfg hev h1 hdp hid hn hk hp hlf hpf⟩

theorem runScript_noop {w : World} (h : NoopOutcome w) :
    runScript w = ⟨2, w.processed, w.leaderboard, []⟩ := by
  obtain ⟨cfg, e, hcfg, hev, hrest⟩ := h
  unfold runScript
  rcases hrest with h1 | ⟨points, user, h1, hdp, hrest⟩
  · simp only [hcfg, hev, h1, if_true, ite_true]
  · rcases hrest with hid | hid | ⟨n, hid, hn, hrest⟩
    · simp only [hcfg, hev, h1, hdp, hid, Bool.false_eq_true, if_false, ite_false]
    · simp only [hcfg, hev, h1, hdp, hid, Bool.false_eq_true, if_false, ite_false,
        if_true, ite_true]
    · rcases hrest with hk | ⟨hk, hp⟩
      · simp only [hcfg, hev, h1, hdp, hid, hn, hk, Bool.false_eq_true, if_false,
          ite_false, if_true, ite_true]
      · simp only [hcfg, hev, h1, hdp, hid, hn, hk, hp, Bool.false_eq_true, if_false,
          ite_false, if_true, ite_true, not_false_eq_true]

theorem runScript_fatal {w : World} (h : FatalOutcome w) :
    (runScript w).exit = 1
    ∧ (runScript w).processed = w.processed
    ∧ ∀ k, ScriptOp.writeProcessed k ∉ (runScript w).trace := by
  unfold runScript
  rcases h with hcfg | ⟨cfg, hcfg, hev⟩ | ⟨cfg, e, hcfg, hev, h1, hdp⟩ |
    ⟨cfg, e, points, user, n, hcfg, hev, h1, hdp, hid, hn, hk, hp, hw⟩
  · simp [hcfg]
  · simp [hcfg, hev]
  · simp [hcfg, hev, h1, hdp]
  · have hnle : ¬ points ≤ 0 := by omega
    rcases hw with hlf | ⟨hlf, hpf⟩
    · simp [hcfg, hev, h1, hdp, hid, hn, hk, hnle, hlf]
    · simp [hcfg, hev, h1, hdp, hid, hn, hk, hnle, hlf, hpf]

theorem award_not_noop {w : World} (ha : AwardOutcome w) (hn : NoopOutcome w) : False := by
  obtain ⟨u, p, k, hk, heq⟩ := runScript_award ha
  have h2 := runScript_noop hn
  rw [heq] at h2
  have h3 := congrArg RunResult.exit h2
  simp at h3

theorem award_not_fatal {w : World} (ha : AwardOutcome w) (hf : FatalOutcome w) : False := by
  obtain ⟨u, p, k, hk, heq⟩ := runScript_award ha
  have h2 := (runScript_fatal hf).1
  rw [heq] at h2
  simp at h2

theorem noop_not_fatal {w : World} (hn : NoopOutcome w) (hf : FatalOutcome w) : False := by
  have h2 := (runScript_fatal hf).1
  rw [runScript_noop hn] at h2
  simp at h2

/-- C6: the script's exit code is always exactly 0, 1 or 2, with the
documented meanings: 0 exactly when points were awarded and both writes
succeeded, 2 exactly for the no-op outcomes (comment on a non-PR issue,
missing or falsy event id, duplicate event id, no scoring criteria
matched), and 1 exactly for fatal errors (missing or invalid
configuration, missing event payload, unextractable user, write failure). -/
theorem C6_exit_codes (w : World) :
    ((runScript w).exit = 0 ∨ (runScript w).exit = 1 ∨ (runScript w).exit = 2)
    ∧ ((runScript w).exit = 0 ↔ AwardOutcome w)
    ∧ ((runScript w).exit = 2 ↔ NoopOutcome w)
    ∧ ((runScript w).exit = 1 ↔ FatalOutcome w) := by
  rcases outcome_total w with h | h | h
  · obtain ⟨u, p, k, hk, heq⟩ := runScript_award h
    have e0 : (runScript w).exit = 0 := by rw [heq]
    refine ⟨Or.inl e0, ⟨fun _ => h, fun _ => e0⟩, ⟨?_, ?_⟩, ⟨?_, ?_⟩⟩
    · intro h2
      rw [e0] at h2
      exact absurd h2 (by decide)
    · intro hno
      exact (award_not_noop h hno).elim
    · intro h1
      rw [e0] at h1
      exact absurd h1 (by decide)
    · intro hf
      exact (award_not_fatal h hf).elim
  · have e2 : (runScript w).exit = 2 := by rw [runScript_noop h]
    refine ⟨Or.inr (Or.inr e2), ⟨?_, ?_⟩, ⟨fun _ => h, fun _ => e2⟩, ⟨?_, ?_⟩⟩
    · intro h0
      rw [e2] at h0
      exact absurd h0 (by decide)
    · intro ha
      exact (award_not_noop ha h).elim
    · intro h1
      rw [e2] at h1
      exact absurd h1 (by decide)
    · intro hf
      exact (noop_not_fatal h hf).elim
  · have e1 : (runScript w).exit = 1 := (runScript_fatal h).1
    refine ⟨Or.inr (Or.inl e1), ⟨?_, ?_⟩, ⟨?_, ?_⟩, ⟨fun _ => h, fun _ => e1⟩⟩
    · intro h0
      rw [e1] at h0
      exact absurd h0 (by decide)
    · intro ha
      exact (award_not_fatal ha h).elim
    · intro h2
      rw [e1] at h2
      exact absurd h2 (by decide)
    · intro hno
      exact (noop_not_fatal hno h).elim

/-- C7: the processed-ids file is written only after the leaderboard write
for the same event has completed: whenever the trace contains the
processed-mark write, it is exactly a leaderboard write followed by the
processed-mark write, so a crash between the two leaves the event unmarked
(to be retried) rather than marked-but-uncredited. -/
theorem C7_write_order (w : World) (k : EventKey)
    (h : ScriptOp.writeProcessed k ∈ (runScript w).trace) :
    ∃ u p, (runScript w).trace
      = [ScriptOp.writeLeaderboard u p, ScriptOp.writeProcessed k] := by
  rcases outcome_total w with ha | hno | hf
  · obtain ⟨u, p, k2, hk2, heq⟩ := runScript_award ha
    rw [heq] at h ⊢
    simp only [List.mem_cons, List.not_mem_nil, or_false] at h
    rcases h with h | h
    · cases h
    · have hk : k = k2 := by injection h
      subst hk
      exact ⟨u, p, rfl⟩
  · rw [runScript_noop hno] at h
    simp at h
  · exact absurd h ((runScript_fatal hf).2.2 k)

/-- C4: once a run has awarded points (exit 0), the first run added the
points to the user's tally and appended the derived event key to the
processed set, and a second run over the same payload with the updated
files is a pure no-op: exit code 2 and no change to either file. -/
theorem C4_second_run_noop (w : World) (h0 : (runScript w).exit = 0) :
    ∃ user points eKey,
      eKey ∉ w.processed
      ∧ runScript w = ⟨0, w.processed ++ [eKey],
          update_leaderboard w.leaderboard user points,
          [ScriptOp.writeLeaderboard user points, ScriptOp.writeProcessed eKey]⟩
      ∧ runScript { w with
            processed := (runScript w).processed
            leaderboard := (runScript w).leaderboard }
          = ⟨2, (runScript w).processed, (runScript w).leaderboard, []⟩ := by
  rcases outcome_total w with ha | hno | hf
  · obtain ⟨cfg, e, points, user, n, hcfg, hev, h1, hdp, hid, hn, hk, hp, hlf, hpf⟩ := ha
    have heq := runScript_award_eq hcfg hev h1 hdp hid hn hk hp hlf hpf
    refine ⟨user, points, eventKeyOf e n, hk, heq, ?_⟩
    have hmem2 : eventKeyOf e n ∈ (runScript w).processed := by
      rw [heq]
      simp
    have hno2 : NoopOutcome { w with
        processed := (runScript w).processed
        leaderboard := (runScript w).leaderboard } :=
      ⟨cfg, e, hcfg, hev, Or.inr ⟨points, user, h1, hdp,
        Or.inr (Or.inr ⟨n, hid, hn, Or.inl hmem2⟩)⟩⟩
    exact runScript_noop hno2
  · rw [runScript_noop hno] at h0
    simp at h0
  · rw [(runScript_fatal hf).1] at h0
    simp at h0

/-- A config matching the documented default point values. -/
def sampleConfig : Config :=
  { basic_review := 5
    detailed_review := 10
    performance_improvement := 4
    approve_pr := 3
    pr_merged := 5
    issue_resolved := 1
    documentation := 3
    security_fix := 8 }

/-- A submitted, approved review whose body contains `detailed`. -/
def sampleEvent : Event :=
  { action := some "submitted"
    review := some
      { id := some 7
        body := some "This is a Detailed analysis"
        state := some "approved"
        user := some { login := some "alice" } }
    comment := none
    pull_request := none
    issue := none
    sender := some { login := some "alice" } }

/-- A fresh filesystem: nothing processed, empty leaderboard, writes work. -/
def sampleWorld : World :=
  { configSrc := ConfigSrc.ok sampleConfig
    eventSrc := EventSrc.ok sampleEvent
    processed := []
    leaderboard := []
    lbWriteFails := false
    procWriteFails := false }

/-- C7 witness: the sample run writes the leaderboard and then the
processed mark, in that order. -/
theorem C7_write_order_witness :
    ScriptOp.writeProcessed (EventKey.raw 7) ∈ (runScript sampleWorld).trace
    ∧ ∃ u p, (runScript sampleWorld).trace
        = [ScriptOp.writeLeaderboard u p, ScriptOp.writeProcessed (EventKey.raw 7)] :=
  ⟨by decide, C7_write_order sampleWorld (EventKey.raw 7) (by decide)⟩

/-- C4 witness: the sample run awards points (exit 0) and a second run on
its output files is an exit-2 no-op that writes nothing. -/
theorem C4_second_run_noop_witness :
    (runScript sampleWorld).exit = 0
    ∧ ∃ user points eKey,
        eKey ∉ sampleWorld.processed
        ∧ runScript sampleWorld = ⟨0, sampleWorld.processed ++ [eKey],
            update_leaderboard sampleWorld.leaderboard user points,
            [ScriptOp.writeLeaderboard user points, ScriptOp.writeProcessed eKey]⟩
        ∧ runScript { sampleWorld with
              processed := (runScript sampleWorld).processed
              leaderboard := (runScript sampleWorld).leaderboard }
            = ⟨2, (runScript sampleWorld).processed, (runScript sampleWorld).leaderboard, []⟩ :=
  ⟨by decide, C4_second_run_noop sampleWorld (by decide)⟩
